import Mathlib

/-!
Verification of the LibUTF `utf_std` layer (src/src/utf_std.cpp).

The C++ code is shallowly embedded: byte buffers are lists of natural
numbers (each byte value below 256 in any well-formed buffer), nullable
pointers become `Option`, `unicode_t` values are represented by their
unsigned 32-bit bit pattern as a natural number, and every decode/encode
function returns an explicit result record instead of writing through
reference parameters.  Machine casts such as `static_cast<uint8_t>` are
modelled by `% 256`, and the one shift that can exceed 32 bits
(`surrogate << 16` in the UTF-16 encoders) is reduced `% 2^32`.
-/

namespace LibUTF

/-- Reads byte `i` of a buffer (in the C code: `buffer[i]`; the index is
only used under the size guards of the original code). -/
def byteAt (buf : List Nat) (i : Nat) : Nat := buf.getD i 0

/-- Result of a decode primitive: the `bool` return value together with
the `unicode` and `bytes` output parameters. -/
structure DecRes where
  ok : Bool
  unicode : Nat
  bytes : Nat
  deriving Repr, DecidableEq

/-- Result of an encode primitive: the `bool` return value, the `bytes`
output parameter, and the (possibly updated) buffer. -/
structure EncRes where
  ok : Bool
  bytes : Nat
  buffer : Option (List Nat)
  deriving Repr, DecidableEq

/-- UTF_TYPE from utf_std.h (closed enum of primary encodings). -/
inductive UTF_TYPE where
  | UTF8 | UTF16le | UTF16be | UTF32le | UTF32be | OTHER | COUNT
  deriving Repr, DecidableEq

/-- Embedding of `getBYTE` (utf_std.cpp lines 192-208). -/
def getBYTE (buffer : Option (List Nat)) (size : Nat) (use_ascii : Bool) : DecRes :=
  match buffer with
  | none => { ok := false, unicode := 0, bytes := 0 }
  | some buf =>
    if 1 ≤ size then
      let byte := byteAt buf 0
      if !use_ascii || byte ≤ 0x7f then
        { ok := true, unicode := byte, bytes := 1 }
      else
        { ok := false, unicode := 0x80000000 + byte, bytes := 1 }
    else { ok := false, unicode := 0, bytes := 0 }

/-- Embedding of `setBYTE` (utf_std.cpp lines 210-220). -/
def setBYTE (buffer : Option (List Nat)) (size : Nat) (unicode : Nat) (use_ascii : Bool) : EncRes :=
  match buffer with
  | none => { ok := false, bytes := 0, buffer := none }
  | some buf =>
    if 1 ≤ size ∧ unicode ≤ (if use_ascii then 0x7f else 0xff) then
      { ok := true, bytes := 1, buffer := some (buf.set 0 (unicode % 256)) }
    else { ok := false, bytes := 0, buffer := some buf }

/-- Embedding of `getUTF8` (utf_std.cpp lines 222-310).  On failure past
the first byte the code leaves `bytes = 1` and reports the sentinel
`0x80000000 | lead`. -/
def getUTF8 (buffer : Option (List Nat)) (size : Nat) (use_java : Bool) : DecRes :=
  match buffer with
  | none => { ok := false, unicode := 0, bytes := 0 }
  | some buf =>
    if 1 ≤ size then
      let byte := byteAt buf 0
      if (byte + 8) % 256 ≤ 0xc7 then
        -- 1 byte (0x00-0x7f) or unexpected continuation (0x80-0xbf) or illegal lead (0xf8-0xff)
        if byte ≤ 0x7f then
          { ok := true, unicode := byte, bytes := 1 }
        else
          { ok := false, unicode := byte ||| 0x80000000, bytes := 1 }
      else if byte ≤ 0xdf then
        -- 2 bytes (11 bits: 0xc0-0xdf)
        if 2 ≤ size then
          let b1 := byteAt buf 1
          if b1 &&& 0xc0 = 0x80 then
            let value := ((byte &&& 0x1f) <<< 6) + (b1 &&& 0x3f)
            if 0x80 ≤ value ∨ (use_java ∧ value = 0) then
              { ok := true, unicode := value, bytes := 2 }
            else
              { ok := false, unicode := byte ||| 0x80000000, bytes := 1 }
          else { ok := false, unicode := byte ||| 0x80000000, bytes := 1 }
        else { ok := false, unicode := byte ||| 0x80000000, bytes := 1 }
      else if byte ≤ 0xef then
        -- 3 bytes (16 bits: 0xe0-0xef)
        if 3 ≤ size then
          let b1 := byteAt buf 1
          if b1 &&& 0xc0 = 0x80 then
            let b2 := byteAt buf 2
            if b2 &&& 0xc0 = 0x80 then
              let value := ((((byte &&& 0x0f) <<< 6) + (b1 &&& 0x3f)) <<< 6) + (b2 &&& 0x3f)
              if 0x800 ≤ value ∧ (value &&& 0xfffff800) ≠ 0xd800 then
                { ok := true, unicode := value, bytes := 3 }
              else
                { ok := false, unicode := byte ||| 0x80000000, bytes := 1 }
            else { ok := false, unicode := byte ||| 0x80000000, bytes := 1 }
          else { ok := false, unicode := byte ||| 0x80000000, bytes := 1 }
        else { ok := false, unicode := byte ||| 0x80000000, bytes := 1 }
      else
        -- 4 bytes (21 bits: 0xf0-0xf7)
        if 4 ≤ size then
          let b1 := byteAt buf 1
          if b1 &&& 0xc0 = 0x80 then
            let b2 := byteAt buf 2
            if b2 &&& 0xc0 = 0x80 then
              let b3 := byteAt buf 3
              if b3 &&& 0xc0 = 0x80 then
                let value :=
                  ((((((byte &&& 0x07) <<< 6) + (b1 &&& 0x3f)) <<< 6) + (b2 &&& 0x3f)) <<< 6)
                    + (b3 &&& 0x3f)
                if 0x10000 ≤ value ∧ value ≤ 0x10ffff then
                  { ok := true, unicode := value, bytes := 4 }
                else
                  { ok := false, unicode := byte ||| 0x80000000, bytes := 1 }
              else { ok := false, unicode := byte ||| 0x80000000, bytes := 1 }
            else { ok := false, unicode := byte ||| 0x80000000, bytes := 1 }
          else { ok := false, unicode := byte ||| 0x80000000, bytes := 1 }
        else { ok := false, unicode := byte ||| 0x80000000, bytes := 1 }
    else { ok := false, unicode := 0, bytes := 0 }

/-- Embedding of `setUTF8` (utf_std.cpp lines 312-374). -/
def setUTF8 (buffer : Option (List Nat)) (size : Nat) (unicode : Nat) (use_java : Bool) : EncRes :=
  match buffer with
  | none => { ok := false, bytes := 0, buffer := none }
  | some buf =>
    if 1 ≤ size ∧ unicode ≤ 0x10ffff then
      if unicode ≤ 0x7f then
        if use_java ∧ unicode = 0 then
          if 2 ≤ size then
            { ok := true, bytes := 2, buffer := some ((buf.set 0 0xc0).set 1 0x80) }
          else { ok := false, bytes := 0, buffer := some buf }
        else
          if 1 ≤ size then
            { ok := true, bytes := 1, buffer := some (buf.set 0 (unicode % 256)) }
          else { ok := false, bytes := 0, buffer := some buf }
      else if unicode ≤ 0x7ff then
        if 2 ≤ size then
          { ok := true, bytes := 2, buffer :=
              some ((buf.set 0 ((((unicode >>> 6) % 256) ||| 0xc0) % 256)).set 1
                      ((((unicode % 256) &&& 0x3f) ||| 0x80) % 256)) }
        else { ok := false, bytes := 0, buffer := some buf }
      else if unicode ≤ 0xffff then
        if 3 ≤ size ∧ (unicode &&& 0xfffff800) ≠ 0xd800 then
          { ok := true, bytes := 3, buffer :=
              some (((buf.set 0 ((((unicode >>> 12) % 256) ||| 0xe0) % 256)).set 1
                       (((((unicode >>> 6) % 256) &&& 0x3f) ||| 0x80) % 256)).set 2
                      ((((unicode % 256) &&& 0x3f) ||| 0x80) % 256)) }
        else { ok := false, bytes := 0, buffer := some buf }
      else
        if 4 ≤ size then
          { ok := true, bytes := 4, buffer :=
              some ((((buf.set 0 ((((unicode >>> 18) % 256) ||| 0xf0) % 256)).set 1
                        (((((unicode >>> 12) % 256) &&& 0x3f) ||| 0x80) % 256)).set 2
                       (((((unicode >>> 6) % 256) &&& 0x3f) ||| 0x80) % 256)).set 3
                      ((((unicode % 256) &&& 0x3f) ||| 0x80) % 256)) }
        else { ok := false, bytes := 0, buffer := some buf }
    else { ok := false, bytes := 0, buffer := buffer }

/-- Embedding of `getUTF16le` (utf_std.cpp lines 376-402). -/
def getUTF16le (buffer : Option (List Nat)) (size : Nat) : DecRes :=
  match buffer with
  | none => { ok := false, unicode := 0, bytes := 0 }
  | some buf =>
    if 2 ≤ size then
      let value := (byteAt buf 1 <<< 8) + byteAt buf 0
      if (value &&& 0xfffff800) ≠ 0xd800 then
        { ok := true, unicode := value, bytes := 2 }
      else if 4 ≤ size ∧ (value &&& 0xfffffc00) = 0xd800 then
        let extra := (byteAt buf 3 <<< 8) + byteAt buf 2
        if (extra &&& 0xfffffc00) = 0xdc00 then
          { ok := true, unicode := ((value &&& 0x3ff) <<< 10) + (extra &&& 0x3ff) + 0x10000,
            bytes := 4 }
        else { ok := false, unicode := 0x80000000, bytes := 2 }
      else { ok := false, unicode := 0x80000000, bytes := 2 }
    else { ok := false, unicode := 0, bytes := 0 }

/-- Embedding of `setUTF16le` (utf_std.cpp lines 404-429).  The word
`surrogate << 16` wraps at 32 bits. -/
def setUTF16le (buffer : Option (List Nat)) (size : Nat) (unicode : Nat) : EncRes :=
  match buffer with
  | none => { ok := false, bytes := 0, buffer := none }
  | some buf =>
    if 2 ≤ size ∧ unicode ≤ 0x10ffff ∧ (unicode &&& 0xfffff800) ≠ 0xd800 then
      if unicode ≤ 0xffff then
        { ok := true, bytes := 2, buffer :=
            some ((buf.set 0 (unicode % 256)).set 1 ((unicode >>> 8) % 256)) }
      else if 4 ≤ size then
        let s := unicode - 0x10000
        let surrogate := (((s >>> 10) ||| ((s <<< 16) % 4294967296)) &&& 0x03ff03ff) ||| 0xdc00d800
        { ok := true, bytes := 4, buffer :=
            some ((((buf.set 0 (surrogate % 256)).set 1 ((surrogate >>> 8) % 256)).set 2
                     ((surrogate >>> 16) % 256)).set 3 ((surrogate >>> 24) % 256)) }
      else { ok := false, bytes := 0, buffer := some buf }
    else { ok := false, bytes := 0, buffer := some buf }

/-- Embedding of `getUTF16be` (utf_std.cpp lines 431-457). -/
def getUTF16be (buffer : Option (List Nat)) (size : Nat) : DecRes :=
  match buffer with
  | none => { ok := false, unicode := 0, bytes := 0 }
  | some buf =>
    if 2 ≤ size then
      let value := (byteAt buf 0 <<< 8) + byteAt buf 1
      if (value &&& 0xfffff800) ≠ 0xd800 then
        { ok := true, unicode := value, bytes := 2 }
      else if 4 ≤ size ∧ (value &&& 0xfffffc00) = 0xd800 then
        let extra := (byteAt buf 2 <<< 8) + byteAt buf 3
        if (extra &&& 0xfffffc00) = 0xdc00 then
          { ok := true, unicode := ((value &&& 0x3ff) <<< 10) + (extra &&& 0x3ff) + 0x10000,
            bytes := 4 }
        else { ok := false, unicode := 0x80000000, bytes := 2 }
      else { ok := false, unicode := 0x80000000, bytes := 2 }
    else { ok := false, unicode := 0, bytes := 0 }

/-- Embedding of `setUTF16be` (utf_std.cpp lines 459-484). -/
def setUTF16be (buffer : Option (List Nat)) (size : Nat) (unicode : Nat) : EncRes :=
  match buffer with
  | none => { ok := false, bytes := 0, buffer := none }
  | some buf =>
    if 2 ≤ size ∧ unicode ≤ 0x10ffff ∧ (unicode &&& 0xfffff800) ≠ 0xd800 then
      if unicode ≤ 0xffff then
        { ok := true, bytes := 2, buffer :=
            some ((buf.set 0 ((unicode >>> 8) % 256)).set 1 (unicode % 256)) }
      else if 4 ≤ size then
        let s := unicode - 0x10000
        let surrogate := (((s >>> 10) ||| ((s <<< 16) % 4294967296)) &&& 0x03ff03ff) ||| 0xdc00d800
        { ok := true, bytes := 4, buffer :=
            some ((((buf.set 0 ((surrogate >>> 8) % 256)).set 1 (surrogate % 256)).set 2
                     ((surrogate >>> 24) % 256)).set 3 ((surrogate >>> 16) % 256)) }
      else { ok := false, bytes := 0, buffer := some buf }
    else { ok := false, bytes := 0, buffer := some buf }

/-- Embedding of `getUTF32le` (utf_std.cpp lines 486-502). -/
def getUTF32le (buffer : Option (List Nat)) (size : Nat) : DecRes :=
  match buffer with
  | none => { ok := false, unicode := 0, bytes := 0 }
  | some buf =>
    if 4 ≤ size then
      let value :=
        ((((byteAt buf 3 <<< 8) + byteAt buf 2) <<< 8) + byteAt buf 1) <<< 8 + byteAt buf 0
      if value ≤ 0x10ffff ∧ (value &&& 0xfffff800) ≠ 0xd800 then
        { ok := true, unicode := value, bytes := 4 }
      else { ok := false, unicode := 0x80000000, bytes := 4 }
    else { ok := false, unicode := 0, bytes := 0 }

/-- Embedding of `setUTF32le` (utf_std.cpp lines 504-517). -/
def setUTF32le (buffer : Option (List Nat)) (size : Nat) (unicode : Nat) : EncRes :=
  match buffer with
  | none => { ok := false, bytes := 0, buffer := none }
  | some buf =>
    if 4 ≤ size ∧ unicode ≤ 0x10ffff ∧ (unicode &&& 0xfffff800) ≠ 0xd800 then
      { ok := true, bytes := 4, buffer :=
          some ((((buf.set 0 (unicode % 256)).set 1 ((unicode >>> 8) % 256)).set 2
                   ((unicode >>> 16) % 256)).set 3 ((unicode >>> 24) % 256)) }
    else { ok := false, bytes := 0, buffer := some buf }

/-- Embedding of `getUTF32be` (utf_std.cpp lines 519-535). -/
def getUTF32be (buffer : Option (List Nat)) (size : Nat) : DecRes :=
  match buffer with
  | none => { ok := false, unicode := 0, bytes := 0 }
  | some buf =>
    if 4 ≤ size then
      let value :=
        ((((byteAt buf 0 <<< 8) + byteAt buf 1) <<< 8) + byteAt buf 2) <<< 8 + byteAt buf 3
      if value ≤ 0x10ffff ∧ (value &&& 0xfffff800) ≠ 0xd800 then
        { ok := true, unicode := value, bytes := 4 }
      else { ok := false, unicode := 0x80000000, bytes := 4 }
    else { ok := false, unicode := 0, bytes := 0 }

/-- Embedding of `setUTF32be` (utf_std.cpp lines 537-550). -/
def setUTF32be (buffer : Option (List Nat)) (size : Nat) (unicode : Nat) : EncRes :=
  match buffer with
  | none => { ok := false, bytes := 0, buffer := none }
  | some buf =>
    if 4 ≤ size ∧ unicode ≤ 0x10ffff ∧ (unicode &&& 0xfffff800) ≠ 0xd800 then
      { ok := true, bytes := 4, buffer :=
          some ((((buf.set 0 ((unicode >>> 24) % 256)).set 1 ((unicode >>> 16) % 256)).set 2
                   ((unicode >>> 8) % 256)).set 3 (unicode % 256)) }
    else { ok := false, bytes := 0, buffer := some buf }

/-- Test `string[i] > 0` on a signed `char` holding byte `b` (true for
byte values 0x01 through 0x7f). -/
def charPos (b : Nat) : Prop := 1 ≤ b ∧ b ≤ 0x7f

instance (b : Nat) : Decidable (charPos b) := by
  unfold charPos; infer_instance

/-- Embedding of `identifyUTF` (utf_std.cpp lines 67-141); returns the
identified type together with the `bytes` output parameter (the number
of BOM bytes encountered). -/
def identifyUTF (buffer : Option (List Nat)) (size : Nat) : UTF_TYPE × Nat :=
  match buffer with
  | none => (UTF_TYPE.OTHER, 0)
  | some buf =>
    if 2 ≤ size then
      if 3 ≤ size ∧ 4 ≤ size ∧ byteAt buf 0 = 0xff ∧ byteAt buf 1 = 0xfe ∧
          byteAt buf 2 = 0x00 ∧ byteAt buf 3 = 0x00 then
        (UTF_TYPE.UTF32le, 4)
      else if 3 ≤ size ∧ 4 ≤ size ∧ byteAt buf 0 = 0x00 ∧ byteAt buf 1 = 0x00 ∧
          byteAt buf 2 = 0xfe ∧ byteAt buf 3 = 0xff then
        (UTF_TYPE.UTF32be, 4)
      else if 3 ≤ size ∧ byteAt buf 0 = 0xef ∧ byteAt buf 1 = 0xbb ∧ byteAt buf 2 = 0xbf then
        (UTF_TYPE.UTF8, 3)
      else if byteAt buf 0 = 0xff ∧ byteAt buf 1 = 0xfe then
        (UTF_TYPE.UTF16le, 2)
      else if byteAt buf 0 = 0xfe ∧ byteAt buf 1 = 0xff then
        (UTF_TYPE.UTF16be, 2)
      else if 4 ≤ size ∧ 8 ≤ size ∧ byteAt buf 1 = 0 ∧ byteAt buf 2 = 0 ∧
          byteAt buf 5 = 0 ∧ byteAt buf 6 = 0 ∧ byteAt buf 3 = 0 ∧ byteAt buf 7 = 0 ∧
          charPos (byteAt buf 0) ∧ charPos (byteAt buf 4) then
        (UTF_TYPE.UTF32le, 0)
      else if 4 ≤ size ∧ 8 ≤ size ∧ byteAt buf 1 = 0 ∧ byteAt buf 2 = 0 ∧
          byteAt buf 5 = 0 ∧ byteAt buf 6 = 0 ∧ byteAt buf 0 = 0 ∧ byteAt buf 4 = 0 ∧
          charPos (byteAt buf 3) ∧ charPos (byteAt buf 7) then
        (UTF_TYPE.UTF32be, 0)
      else if 4 ≤ size ∧ byteAt buf 1 = 0 ∧ byteAt buf 3 = 0 ∧
          charPos (byteAt buf 0) ∧ charPos (byteAt buf 2) then
        (UTF_TYPE.UTF16le, 0)
      else if 4 ≤ size ∧ byteAt buf 0 = 0 ∧ byteAt buf 2 = 0 ∧
          charPos (byteAt buf 1) ∧ charPos (byteAt buf 3) then
        (UTF_TYPE.UTF16be, 0)
      else if charPos (byteAt buf 0) ∧ charPos (byteAt buf 1) then
        (UTF_TYPE.UTF8, 0)
      else (UTF_TYPE.OTHER, 0)
    else (UTF_TYPE.OTHER, 0)

/-- Embedding of `utf_text` (utf_std.h): non-owning view of a byte
buffer; `buffer = none` models a null pointer. -/
structure utf_text where
  length : Nat
  offset : Nat
  buffer : Option (List Nat)
  deriving Repr, DecidableEq

/-- Pointer arithmetic `&buffer[k]` on a nullable buffer. -/
def subBuf (buffer : Option (List Nat)) (k : Nat) : Option (List Nat) :=
  buffer.map (List.drop k)

/-- Rejoins a buffer updated through `&buffer[k]` with its first `k`
bytes (models that writes through the sub-pointer land in the original
allocation). -/
def joinBuf (orig : Option (List Nat)) (k : Nat) (sub : Option (List Nat)) :
    Option (List Nat) :=
  match orig, sub with
  | some l, some s => some (l.take k ++ s)
  | _, _ => orig

/-- The closed set of concrete IUTF handler classes of utf_std.cpp
(CUTF8, CJUTF8, CUTF16le, CUTF16be, CUTF32le, CUTF32be, CBYTE, CASCII). -/
inductive Handler where
  | utf8 | jutf8 | utf16le | utf16be | utf32le | utf32be | byte | ascii
  deriving Repr, DecidableEq

/-- Virtual `get` dispatch: each concrete class forwards to its decode
primitive (utf_std.cpp lines 1258, 1274, 1290, 1306, 1322, 1338, 1354, 1366). -/
def Handler.hget : Handler → Option (List Nat) → Nat → DecRes
  | .utf8 => fun b s => getUTF8 b s false
  | .jutf8 => fun b s => getUTF8 b s true
  | .utf16le => getUTF16le
  | .utf16be => getUTF16be
  | .utf32le => getUTF32le
  | .utf32be => getUTF32be
  | .byte => fun b s => getBYTE b s false
  | .ascii => fun b s => getBYTE b s true

/-- Virtual `set` dispatch: each concrete class forwards to its encode
primitive (utf_std.cpp lines 1259, 1275, 1291, 1307, 1323, 1339, 1355, 1367). -/
def Handler.hset : Handler → Option (List Nat) → Nat → Nat → EncRes
  | .utf8 => fun b s u => setUTF8 b s u false
  | .jutf8 => fun b s u => setUTF8 b s u true
  | .utf16le => setUTF16le
  | .utf16be => setUTF16be
  | .utf32le => setUTF32le
  | .utf32be => setUTF32be
  | .byte => fun b s u => setBYTE b s u false
  | .ascii => fun b s u => setBYTE b s u true

/-- Embedding of `IUTF::getHandler(UTF_TYPE)` (utf_std.cpp lines
1379-1390): the default case yields the Java-style UTF-8 handler. -/
def getHandler : UTF_TYPE → Handler
  | .UTF8 => .utf8
  | .UTF16le => .utf16le
  | .UTF16be => .utf16be
  | .UTF32le => .utf32le
  | .UTF32be => .utf32be
  | _ => .jutf8

namespace IUTF

/-- Embedding of `IUTF::get(const utf_text&,...)` (utf_std.cpp lines
1067-1076). -/
def get (h : Handler) (t : utf_text) : DecRes :=
  if t.offset ≤ t.length then
    h.hget (subBuf t.buffer t.offset) (t.length - t.offset)
  else { ok := false, unicode := 0, bytes := 0 }

/-- Embedding of `IUTF::set(utf_text&,...)` (utf_std.cpp lines
1078-1086); the returned buffer is the caller's buffer after the writes
made through `&buffer[offset]`. -/
def set (h : Handler) (t : utf_text) (unicode : Nat) : EncRes :=
  if t.offset ≤ t.length then
    let r := h.hset (subBuf t.buffer t.offset) (t.length - t.offset) unicode
    { r with buffer := joinBuf t.buffer t.offset r.buffer }
  else { ok := false, bytes := 0, buffer := t.buffer }

/-- Embedding of `IUTF::read` (utf_std.cpp lines 1108-1114): decodes one
code point and advances the offset by the reported `bytes`. -/
def read (h : Handler) (t : utf_text) : DecRes × utf_text :=
  let r := get h t
  (r, { t with offset := t.offset + r.bytes })

/-- Embedding of `IUTF::write` (utf_std.cpp lines 1116-1122): encodes
one code point and advances the offset by the reported `bytes`. -/
def write (h : Handler) (t : utf_text) (unicode : Nat) : Bool × utf_text :=
  let r := set h t unicode
  (r.ok, { length := t.length, offset := t.offset + r.bytes, buffer := r.buffer })

end IUTF

theorem getBYTE_ok_bytes (b : Option (List Nat)) (s : Nat) (a : Bool)
    (hok : (getBYTE b s a).ok = true) :
    1 ≤ (getBYTE b s a).bytes ∧ (getBYTE b s a).bytes ≤ s := by
  cases b with
  | none => simp [getBYTE] at hok
  | some buf =>
    simp only [getBYTE] at hok ⊢
    split_ifs at hok ⊢ <;> simp_all

set_option maxHeartbeats 2000000 in
theorem getUTF8_ok_bytes (b : Option (List Nat)) (s : Nat) (j : Bool)
    (hok : (getUTF8 b s j).ok = true) :
    1 ≤ (getUTF8 b s j).bytes ∧ (getUTF8 b s j).bytes ≤ s := by
  cases b with
  | none => simp [getUTF8] at hok
  | some buf =>
    simp only [getUTF8] at hok ⊢
    split_ifs at hok ⊢ <;> simp_all

theorem getUTF16le_ok_bytes (b : Option (List Nat)) (s : Nat)
    (hok : (getUTF16le b s).ok = true) :
    1 ≤ (getUTF16le b s).bytes ∧ (getUTF16le b s).bytes ≤ s := by
  cases b with
  | none => simp [getUTF16le] at hok
  | some buf =>
    simp only [getUTF16le] at hok ⊢
    split_ifs at hok ⊢ <;> simp_all <;> omega

theorem getUTF16be_ok_bytes (b : Option (List Nat)) (s : Nat)
    (hok : (getUTF16be b s).ok = true) :
    1 ≤ (getUTF16be b s).bytes ∧ (getUTF16be b s).bytes ≤ s := by
  cases b with
  | none => simp [getUTF16be] at hok
  | some buf =>
    simp only [getUTF16be] at hok ⊢
    split_ifs at hok ⊢ <;> simp_all <;> omega

theorem getUTF32le_ok_bytes (b : Option (List Nat)) (s : Nat)
    (hok : (getUTF32le b s).ok = true) :
    1 ≤ (getUTF32le b s).bytes ∧ (getUTF32le b s).bytes ≤ s := by
  cases b with
  | none => simp [getUTF32le] at hok
  | some buf =>
    simp only [getUTF32le] at hok ⊢
    split_ifs at hok ⊢ <;> simp_all

theorem getUTF32be_ok_bytes (b : Option (List Nat)) (s : Nat)
    (hok : (getUTF32be b s).ok = true) :
    1 ≤ (getUTF32be b s).bytes ∧ (getUTF32be b s).bytes ≤ s := by
  cases b with
  | none => simp [getUTF32be] at hok
  | some buf =>
    simp only [getUTF32be] at hok ⊢
    split_ifs at hok ⊢ <;> simp_all

/-- Success of a decode primitive consumes at least one byte and never
more than the supplied size (needed to justify termination of the
scanning loops below). -/
theorem hget_ok_bytes (h : Handler) (b : Option (List Nat)) (s : Nat)
    (hok : (h.hget b s).ok = true) :
    1 ≤ (h.hget b s).bytes ∧ (h.hget b s).bytes ≤ s := by
  cases h <;> simp only [Handler.hget] at hok ⊢
  · exact getUTF8_ok_bytes b s false hok
  · exact getUTF8_ok_bytes b s true hok
  · exact getUTF16le_ok_bytes b s hok
  · exact getUTF16be_ok_bytes b s hok
  · exact getUTF32le_ok_bytes b s hok
  · exact getUTF32be_ok_bytes b s hok
  · exact getBYTE_ok_bytes b s false hok
  · exact getBYTE_ok_bytes b s true hok

theorem iget_ok_advance (h : Handler) (t : utf_text)
    (hok : (IUTF.get h t).ok = true) :
    1 ≤ (IUTF.get h t).bytes ∧ t.offset + (IUTF.get h t).bytes ≤ t.length := by
  unfold IUTF.get at hok ⊢
  split at hok
  case isTrue hle =>
    have := hget_ok_bytes h (subBuf t.buffer t.offset) (t.length - t.offset) hok
    simp only [if_pos hle]
    omega
  case isFalse h1 => simp at hok

namespace IUTF

/-- Embedding of `IUTF::getNLF` (utf_std.cpp lines 1158-1199):
newline-family normalisation, collapsing an adjacent CR+LF or LF+CR pair
(detected by `unicode == pairing ^ 0x7`) into one boundary. -/
def getNLF (h : Handler) (t : utf_text) : DecRes :=
  let r := get h t
  if r.ok then
    if r.unicode = 0x0a ∨ r.unicode = 0x0d then
      let p := get h { t with offset := t.offset + r.bytes }
      if p.ok ∧ r.unicode = p.unicode ^^^ 0x07 then
        { ok := true, unicode := 0x0a, bytes := r.bytes + p.bytes }
      else
        { ok := true, unicode := 0x0a, bytes := r.bytes }
    else if r.unicode = 0x0b ∨ r.unicode = 0x0c ∨ r.unicode = 0x85 ∨
        r.unicode = 0x2028 ∨ r.unicode = 0x2029 then
      { ok := true, unicode := 0x0a, bytes := r.bytes }
    else r
  else r

/-- Embedding of `IUTF::readNLF` (utf_std.cpp lines 1201-1207). -/
def readNLF (h : Handler) (t : utf_text) : DecRes × utf_text :=
  let r := getNLF h t
  (r, { t with offset := t.offset + r.bytes })

end IUTF

theorem getNLF_ok_advance (h : Handler) (t : utf_text)
    (hok : (IUTF.getNLF h t).ok = true) :
    1 ≤ (IUTF.getNLF h t).bytes ∧ t.offset < t.length := by
  unfold IUTF.getNLF at hok ⊢
  by_cases hg : (IUTF.get h t).ok = true
  · have hadv := iget_ok_advance h t hg
    simp only [hg, if_true] at hok ⊢
    split_ifs <;> simp_all <;> omega
  · simp_all

namespace IUTF

/-- Loop body of `IUTF::validate` (utf_std.cpp lines 1146-1154): read
until the offset reaches the length, failing on any read failure. -/
def validateLoop (h : Handler) (scan : utf_text) : Bool :=
  if h1 : scan.offset < scan.length then
    if h2 : (read h scan).1.ok then validateLoop h (read h scan).2
    else false
  else true
termination_by scan.length - scan.offset
decreasing_by
  simp only [read] at h2 ⊢
  have := iget_ok_advance h scan h2
  omega

/-- Embedding of `IUTF::validate` (utf_std.cpp lines 1140-1156).  Note
the guard on line 1142: the function returns `false` outright whenever
`offset < length`, so the read loop is only ever entered with nothing
left to read. -/
def validate (h : Handler) (t : utf_text) : Bool :=
  if t.buffer = none ∨ t.offset < t.length then false
  else validateLoop h t

/-- Loop of `IUTF::getLine` (utf_std.cpp lines 1224-1236): scan for a
normalised line feed or a null terminator; the returned triple is
(success, line view, bytes). -/
def getLineLoop (h : Handler) (scan : utf_text) : Bool × utf_text × Nat :=
  if h1 : (getNLF h scan).ok then
    if h2 : (getNLF h scan).unicode = 0x0a ∨ (getNLF h scan).unicode = 0 then
      (true, { length := scan.offset, offset := 0, buffer := scan.buffer },
        (getNLF h scan).bytes + scan.offset)
    else getLineLoop h { scan with offset := scan.offset + (getNLF h scan).bytes }
  else (false, { length := 0, offset := 0, buffer := none }, (getNLF h scan).bytes)
termination_by scan.length - scan.offset
decreasing_by
  have := getNLF_ok_advance h scan h1
  show scan.length - (scan.offset + (getNLF h scan).bytes) < scan.length - scan.offset
  omega

/-- Embedding of `IUTF::getLine` (utf_std.cpp lines 1209-1239). -/
def getLine (h : Handler) (t : utf_text) : Bool × utf_text × Nat :=
  if t.buffer ≠ none ∧ t.offset ≤ t.length then
    getLineLoop h { length := t.length - t.offset, offset := 0, buffer := subBuf t.buffer t.offset }
  else (false, { length := 0, offset := 0, buffer := none }, 0)

/-- Embedding of `IUTF::readLine` (utf_std.cpp lines 1241-1247): the
pair is (success, line view) and the third component is the source text
with its offset advanced by the scanned bytes. -/
def readLine (h : Handler) (t : utf_text) : Bool × utf_text × utf_text :=
  let r := getLine h t
  (r.1, r.2.1, { t with offset := t.offset + r.2.2 })

end IUTF

/-! Arithmetic characterisations of the bit operations used by the
codec, reducing masks, shifts and disjoint bitwise ors to division,
remainder and addition so that linear arithmetic can finish proofs. -/

theorem byteAt_lt (buf : List Nat) (i : Nat) (hb : ∀ b ∈ buf, b < 256) :
    byteAt buf i < 256 := by
  unfold byteAt
  rcases h : buf[i]? with _ | v
  · simp [List.getD_eq_getElem?_getD, h]
  · have : v ∈ buf := List.getElem?_mem h
    simp [List.getD_eq_getElem?_getD, h]
    exact hb v this

theorem byteAt_set_self (l : List Nat) (i v : Nat) (h : i < l.length) :
    byteAt (l.set i v) i = v := by
  simp [byteAt, List.getD_eq_getElem?_getD, List.getElem?_set_self (by simpa using h)]

theorem byteAt_set_ne (l : List Nat) (i j v : Nat) (h : i ≠ j) :
    byteAt (l.set i v) j = byteAt l j := by
  simp [byteAt, List.getD_eq_getElem?_getD, List.getElem?_set_ne h]

theorem and_window (x k m : Nat) (h : k ≤ m) :
    x &&& (2 ^ m - 2 ^ k) = 2 ^ k * (x / 2 ^ k % 2 ^ (m - k)) := by
  have hp : 2 ^ k * 2 ^ (m - k) = 2 ^ m := by
    rw [← pow_add]
    congr 1
    omega
  have hmask : 2 ^ m - 2 ^ k = 2 ^ k * (2 ^ (m - k) - 1) := by
    rw [Nat.mul_sub_one, hp]
  have hdiv : x / 2 ^ k = x >>> k := (Nat.shiftRight_eq_div_pow x k).symm
  rw [hmask, hdiv]
  apply Nat.eq_of_testBit_eq
  intro i
  rw [Nat.testBit_and, Nat.testBit_mul_pow_two, Nat.testBit_mul_pow_two,
    Nat.testBit_two_pow_sub_one, Nat.testBit_mod_two_pow, Nat.testBit_shiftRight]
  by_cases h1 : k ≤ i
  · by_cases h2 : i - k < m - k
    · have h3 : k + (i - k) = i := by omega
      rw [h3]
      simp [h1, h2, Bool.and_comm]
    · have h3 : ¬ i < m := by omega
      simp [h1, h2, Nat.testBit_lt_two_pow, Bool.and_comm]
  · simp [h1, ge_iff_le]

theorem and31 (x : Nat) : x &&& 0x1f = x % 32 := by
  have := Nat.and_pow_two_sub_one_eq_mod x 5
  norm_num at this
  exact this

theorem and15 (x : Nat) : x &&& 0x0f = x % 16 := by
  have := Nat.and_pow_two_sub_one_eq_mod x 4
  norm_num at this
  exact this

theorem and7 (x : Nat) : x &&& 0x07 = x % 8 := by
  have := Nat.and_pow_two_sub_one_eq_mod x 3
  norm_num at this
  exact this

theorem and63 (x : Nat) : x &&& 0x3f = x % 64 := by
  have := Nat.and_pow_two_sub_one_eq_mod x 6
  norm_num at this
  exact this

theorem and1023 (x : Nat) : x &&& 0x3ff = x % 1024 := by
  have := Nat.and_pow_two_sub_one_eq_mod x 10
  norm_num at this
  exact this

theorem andC0 (x : Nat) : x &&& 0xc0 = 64 * (x / 64 % 4) := by
  have := and_window x 6 8 (by omega)
  norm_num at this
  exact this

theorem andF800 (x : Nat) : x &&& 0xfffff800 = 2048 * (x / 2048 % 2097152) := by
  have := and_window x 11 32 (by omega)
  norm_num at this
  exact this

theorem andFC00 (x : Nat) : x &&& 0xfffffc00 = 1024 * (x / 1024 % 4194304) := by
  have := and_window x 10 32 (by omega)
  norm_num at this
  exact this

theorem or_small (k a y : Nat) (hy : y < 2 ^ k) : 2 ^ k * a ||| y = 2 ^ k * a + y :=
  (Nat.mul_add_lt_is_or hy a).symm

theorem or128 (y : Nat) (hy : y < 128) : y ||| 128 = 128 + y := by
  rw [Nat.or_comm]
  have := or_small 7 1 y (by omega)
  norm_num at this
  omega

theorem or192 (y : Nat) (hy : y < 64) : y ||| 192 = 192 + y := by
  rw [Nat.or_comm]
  have := or_small 6 3 y (by omega)
  norm_num at this
  omega

theorem or224 (y : Nat) (hy : y < 32) : y ||| 224 = 224 + y := by
  rw [Nat.or_comm]
  have := or_small 5 7 y (by omega)
  norm_num at this
  omega

theorem or240 (y : Nat) (hy : y < 16) : y ||| 240 = 240 + y := by
  rw [Nat.or_comm]
  have := or_small 4 15 y (by omega)
  norm_num at this
  omega

theorem orD800 (y : Nat) (hy : y < 1024) : y ||| 0xd800 = 0xd800 + y := by
  rw [Nat.or_comm]
  have := or_small 10 54 y (by omega)
  norm_num at this
  omega

theorem orDC00 (y : Nat) (hy : y < 1024) : y ||| 0xdc00 = 0xdc00 + y := by
  rw [Nat.or_comm]
  have := or_small 10 55 y (by omega)
  norm_num at this
  omega

theorem orHigh (y : Nat) (hy : y < 2147483648) : y ||| 0x80000000 = 0x80000000 + y := by
  rw [Nat.or_comm]
  have := or_small 31 1 y (by omega)
  norm_num at this
  omega

theorem or_mod_two_pow (a b k : Nat) :
    (a ||| b) % 2 ^ k = a % 2 ^ k ||| b % 2 ^ k := by
  apply Nat.eq_of_testBit_eq
  intro i
  simp only [Nat.testBit_mod_two_pow, Nat.testBit_or]
  by_cases h : i < k <;> simp [h]

theorem or_div_two_pow (a b k : Nat) :
    (a ||| b) / 2 ^ k = a / 2 ^ k ||| b / 2 ^ k := by
  have h1 : ∀ x : Nat, x / 2 ^ k = x >>> k := fun x => (Nat.shiftRight_eq_div_pow x k).symm
  rw [h1, h1, h1]
  apply Nat.eq_of_testBit_eq
  intro i
  simp [Nat.testBit_shiftRight, Nat.testBit_or]

theorem and_mod_two_pow (a b k : Nat) :
    (a &&& b) % 2 ^ k = a % 2 ^ k &&& b % 2 ^ k := by
  apply Nat.eq_of_testBit_eq
  intro i
  simp only [Nat.testBit_mod_two_pow, Nat.testBit_and]
  by_cases h : i < k <;> simp [h]

theorem and_div_two_pow (a b k : Nat) :
    (a &&& b) / 2 ^ k = a / 2 ^ k &&& b / 2 ^ k := by
  have h1 : ∀ x : Nat, x / 2 ^ k = x >>> k := fun x => (Nat.shiftRight_eq_div_pow x k).symm
  rw [h1, h1, h1]
  apply Nat.eq_of_testBit_eq
  intro i
  simp [Nat.testBit_shiftRight, Nat.testBit_and]

/-- Arithmetic form of the combined surrogate word computed by the
UTF-16 encoders for a supplementary value `0x10000 + s`. -/
theorem utf16_word (s : Nat) (hs : s < 2 ^ 20) :
    (((s >>> 10) ||| ((s <<< 16) % 4294967296)) &&& 0x03ff03ff) ||| 0xdc00d800
      = 65536 * (0xdc00 + s % 1024) + (0xd800 + s / 1024) := by
  have e16 : (2 : Nat) ^ 16 = 65536 := by norm_num
  have hu : s / 1024 < 1024 := by omega
  have hM1 : (0x03ff03ff : Nat) % 65536 = 1023 := by norm_num
  have hM2 : (0x03ff03ff : Nat) / 65536 = 1023 := by norm_num
  have hC1 : (0xdc00d800 : Nat) % 65536 = 0xd800 := by norm_num
  have hC2 : (0xdc00d800 : Nat) / 65536 = 0xdc00 := by norm_num
  have h1 : s >>> 10 = s / 1024 := by
    rw [Nat.shiftRight_eq_div_pow]
  have h2 : (s <<< 16) % 4294967296 = s % 65536 * 65536 := by
    rw [Nat.shiftLeft_eq, e16]
    have h4 : (4294967296 : Nat) = 65536 * 65536 := by norm_num
    rw [h4, Nat.mul_mod_mul_right]
  have hA : (s >>> 10) ||| ((s <<< 16) % 4294967296) = 65536 * (s % 65536) + s / 1024 := by
    rw [h1, h2, Nat.or_comm, Nat.mul_comm (s % 65536) 65536]
    have h5 := or_small 16 (s % 65536) (s / 1024) (by rw [e16]; omega)
    rw [e16] at h5
    exact h5
  rw [hA]
  have hXm : (65536 * (s % 65536) + s / 1024) % 65536 = s / 1024 := by omega
  have hXd : (65536 * (s % 65536) + s / 1024) / 65536 = s % 65536 := by omega
  have hBm : ((65536 * (s % 65536) + s / 1024) &&& 0x03ff03ff) % 65536 = s / 1024 := by
    have hd := and_mod_two_pow (65536 * (s % 65536) + s / 1024) 0x03ff03ff 16
    rw [e16] at hd
    rw [hd, hM1, hXm, and1023]
    omega
  have hBd : ((65536 * (s % 65536) + s / 1024) &&& 0x03ff03ff) / 65536 = s % 1024 := by
    have hd := and_div_two_pow (65536 * (s % 65536) + s / 1024) 0x03ff03ff 16
    rw [e16] at hd
    rw [hd, hM2, hXd, and1023]
    omega
  have hB : (65536 * (s % 65536) + s / 1024) &&& 0x03ff03ff
      = 65536 * (s % 1024) + s / 1024 := by omega
  rw [hB]
  have hWm : ((65536 * (s % 1024) + s / 1024) ||| 0xdc00d800) % 65536 = 0xd800 + s / 1024 := by
    have hd := or_mod_two_pow (65536 * (s % 1024) + s / 1024) 0xdc00d800 16
    rw [e16] at hd
    rw [hd, hC1]
    have h8 : (65536 * (s % 1024) + s / 1024) % 65536 = s / 1024 := by omega
    rw [h8, orD800 (s / 1024) hu]
  have hWd : ((65536 * (s % 1024) + s / 1024) ||| 0xdc00d800) / 65536 = 0xdc00 + s % 1024 := by
    have hd := or_div_two_pow (65536 * (s % 1024) + s / 1024) 0xdc00d800 16
    rw [e16] at hd
    rw [hd, hC2]
    have h8 : (65536 * (s % 1024) + s / 1024) / 65536 = s % 1024 := by omega
    rw [h8, orDC00 (s % 1024) (by omega)]
  omega

/-- Unicode scalar value ("rune"): at most 0x10FFFF and not a surrogate. -/
def isRune (r : Nat) : Prop := r ≤ 0x10ffff ∧ ¬(0xd800 ≤ r ∧ r ≤ 0xdfff)

instance (r : Nat) : Decidable (isRune r) := by
  unfold isRune; infer_instance

/-! Branch characterisations of the UTF-8 primitives, one per sequence
length, each stating the en/decoded bytes in plain arithmetic form. -/

theorem setUTF8_1 (buf : List Nat) (size r : Nat) (hr : r ≤ 0x7f) (hs : 1 ≤ size) :
    setUTF8 (some buf) size r false =
      { ok := true, bytes := 1, buffer := some (buf.set 0 r) } := by
  simp only [setUTF8]
  rw [if_pos ⟨hs, by omega⟩, if_pos hr, if_neg (by simp), if_pos hs]
  have h0 : r % 256 = r := by omega
  rw [h0]

theorem getUTF8_1 (buf : List Nat) (size : Nat) (j : Bool)
    (hr : byteAt buf 0 ≤ 0x7f) (hs : 1 ≤ size) :
    getUTF8 (some buf) size j = { ok := true, unicode := byteAt buf 0, bytes := 1 } := by
  simp only [getUTF8]
  rw [if_pos hs, if_pos (by omega), if_pos hr]

theorem setUTF8_2 (buf : List Nat) (size r : Nat) (hr1 : 0x80 ≤ r) (hr2 : r ≤ 0x7ff)
    (hs : 2 ≤ size) :
    setUTF8 (some buf) size r false =
      { ok := true, bytes := 2,
        buffer := some ((buf.set 0 (192 + r / 64)).set 1 (128 + r % 64)) } := by
  simp only [setUTF8]
  rw [if_pos ⟨by omega, by omega⟩, if_neg (by omega), if_pos hr2, if_pos hs]
  have hs6 : r >>> 6 = r / 64 := by rw [Nat.shiftRight_eq_div_pow]
  have h0 : (((r >>> 6) % 256) ||| 0xc0) % 256 = 192 + r / 64 := by
    rw [hs6]
    have hm : r / 64 % 256 = r / 64 := by omega
    rw [hm, or192 _ (by omega)]
    omega
  have h1 : (((r % 256) &&& 0x3f) ||| 0x80) % 256 = 128 + r % 64 := by
    rw [and63]
    have hm : r % 256 % 64 = r % 64 := by omega
    rw [hm, or128 _ (by omega)]
    omega
  rw [h0, h1]

theorem getUTF8_2 (buf : List Nat) (size r : Nat) (j : Bool)
    (hr1 : 0x80 ≤ r) (hr2 : r ≤ 0x7ff) (hs : 2 ≤ size)
    (h0 : byteAt buf 0 = 192 + r / 64) (h1 : byteAt buf 1 = 128 + r % 64) :
    getUTF8 (some buf) size j = { ok := true, unicode := r, bytes := 2 } := by
  simp only [getUTF8, h0, h1]
  rw [if_pos (by omega), if_neg (by omega), if_pos (by omega), if_pos hs,
    if_pos (by rw [andC0]; omega)]
  have e6 : (2 : Nat) ^ 6 = 64 := by norm_num
  have hv : (((192 + r / 64) &&& 0x1f) <<< 6) + ((128 + r % 64) &&& 0x3f) = r := by
    rw [and31, and63, Nat.shiftLeft_eq, e6]
    omega
  rw [hv, if_pos (Or.inl (by omega))]

theorem setUTF8_3 (buf : List Nat) (size r : Nat) (hr1 : 0x800 ≤ r) (hr2 : r ≤ 0xffff)
    (hsur : ¬(0xd800 ≤ r ∧ r ≤ 0xdfff)) (hs : 3 ≤ size) :
    setUTF8 (some buf) size r false =
      { ok := true, bytes := 3,
        buffer := some (((buf.set 0 (224 + r / 4096)).set 1
          (128 + r / 64 % 64)).set 2 (128 + r % 64)) } := by
  simp only [setUTF8]
  rw [if_pos ⟨by omega, by omega⟩, if_neg (by omega), if_neg (by omega), if_pos hr2,
    if_pos ⟨hs, by rw [andF800]; omega⟩]
  have hs12 : r >>> 12 = r / 4096 := by rw [Nat.shiftRight_eq_div_pow]
  have hs6 : r >>> 6 = r / 64 := by rw [Nat.shiftRight_eq_div_pow]
  have h0 : (((r >>> 12) % 256) ||| 0xe0) % 256 = 224 + r / 4096 := by
    rw [hs12]
    have hm : r / 4096 % 256 = r / 4096 := by omega
    rw [hm, or224 _ (by omega)]
    omega
  have h1 : ((((r >>> 6) % 256) &&& 0x3f) ||| 0x80) % 256 = 128 + r / 64 % 64 := by
    rw [hs6, and63]
    have hm : r / 64 % 256 % 64 = r / 64 % 64 := by omega
    rw [hm, or128 _ (by omega)]
    omega
  have h2 : (((r % 256) &&& 0x3f) ||| 0x80) % 256 = 128 + r % 64 := by
    rw [and63]
    have hm : r % 256 % 64 = r % 64 := by omega
    rw [hm, or128 _ (by omega)]
    omega
  rw [h0, h1, h2]

theorem getUTF8_3 (buf : List Nat) (size r : Nat) (j : Bool)
    (hr1 : 0x800 ≤ r) (hr2 : r ≤ 0xffff) (hsur : ¬(0xd800 ≤ r ∧ r ≤ 0xdfff)) (hs : 3 ≤ size)
    (h0 : byteAt buf 0 = 224 + r / 4096) (h1 : byteAt buf 1 = 128 + r / 64 % 64)
    (h2 : byteAt buf 2 = 128 + r % 64) :
    getUTF8 (some buf) size j = { ok := true, unicode := r, bytes := 3 } := by
  simp only [getUTF8, h0, h1, h2]
  rw [if_pos (by omega), if_neg (by omega), if_neg (by omega), if_pos (by omega), if_pos hs,
    if_pos (by rw [andC0]; omega), if_pos (by rw [andC0]; omega)]
  have e6 : (2 : Nat) ^ 6 = 64 := by norm_num
  have hv : (((((224 + r / 4096) &&& 0x0f) <<< 6) + ((128 + r / 64 % 64) &&& 0x3f)) <<< 6)
      + ((128 + r % 64) &&& 0x3f) = r := by
    rw [and15, and63, and63, Nat.shiftLeft_eq, Nat.shiftLeft_eq, e6]
    omega
  rw [hv, if_pos ⟨by omega, by rw [andF800]; omega⟩]

theorem setUTF8_4 (buf : List Nat) (size r : Nat) (hr1 : 0x10000 ≤ r) (hr2 : r ≤ 0x10ffff)
    (hs : 4 ≤ size) :
    setUTF8 (some buf) size r false =
      { ok := true, bytes := 4,
        buffer := some ((((buf.set 0 (240 + r / 262144)).set 1
          (128 + r / 4096 % 64)).set 2 (128 + r / 64 % 64)).set 3 (128 + r % 64)) } := by
  simp only [setUTF8]
  rw [if_pos ⟨by omega, by omega⟩, if_neg (by omega), if_neg (by omega), if_neg (by omega),
    if_pos hs]
  have hs18 : r >>> 18 = r / 262144 := by rw [Nat.shiftRight_eq_div_pow]
  have hs12 : r >>> 12 = r / 4096 := by rw [Nat.shiftRight_eq_div_pow]
  have hs6 : r >>> 6 = r / 64 := by rw [Nat.shiftRight_eq_div_pow]
  have h0 : (((r >>> 18) % 256) ||| 0xf0) % 256 = 240 + r / 262144 := by
    rw [hs18]
    have hm : r / 262144 % 256 = r / 262144 := by omega
    rw [hm, or240 _ (by omega)]
    omega
  have h1 : ((((r >>> 12) % 256) &&& 0x3f) ||| 0x80) % 256 = 128 + r / 4096 % 64 := by
    rw [hs12, and63]
    have hm : r / 4096 % 256 % 64 = r / 4096 % 64 := by omega
    rw [hm, or128 _ (by omega)]
    omega
  have h2 : ((((r >>> 6) % 256) &&& 0x3f) ||| 0x80) % 256 = 128 + r / 64 % 64 := by
    rw [hs6, and63]
    have hm : r / 64 % 256 % 64 = r / 64 % 64 := by omega
    rw [hm, or128 _ (by omega)]
    omega
  have h3 : (((r % 256) &&& 0x3f) ||| 0x80) % 256 = 128 + r % 64 := by
    rw [and63]
    have hm : r % 256 % 64 = r % 64 := by omega
    rw [hm, or128 _ (by omega)]
    omega
  rw [h0, h1, h2, h3]

theorem getUTF8_4 (buf : List Nat) (size r : Nat) (j : Bool)
    (hr1 : 0x10000 ≤ r) (hr2 : r ≤ 0x10ffff) (hs : 4 ≤ size)
    (h0 : byteAt buf 0 = 240 + r / 262144) (h1 : byteAt buf 1 = 128 + r / 4096 % 64)
    (h2 : byteAt buf 2 = 128 + r / 64 % 64) (h3 : byteAt buf 3 = 128 + r % 64) :
    getUTF8 (some buf) size j = { ok := true, unicode := r, bytes := 4 } := by
  simp only [getUTF8, h0, h1, h2, h3]
  rw [if_pos (by omega), if_neg (by omega), if_neg (by omega), if_neg (by omega), if_pos hs,
    if_pos (by rw [andC0]; omega), if_pos (by rw [andC0]; omega), if_pos (by rw [andC0]; omega)]
  have e6 : (2 : Nat) ^ 6 = 64 := by norm_num
  have hv : (((((((240 + r / 262144) &&& 0x07) <<< 6) + ((128 + r / 4096 % 64) &&& 0x3f)) <<< 6)
      + ((128 + r / 64 % 64) &&& 0x3f)) <<< 6) + ((128 + r % 64) &&& 0x3f) = r := by
    rw [and7, and63, and63, and63, Nat.shiftLeft_eq, Nat.shiftLeft_eq, Nat.shiftLeft_eq, e6]
    omega
  rw [hv, if_pos ⟨by omega, by omega⟩]

theorem utf8_roundtrip (r : Nat) (buf : List Nat) (hr : isRune r) (hl : 4 ≤ buf.length) :
    (setUTF8 (some buf) buf.length r false).ok = true ∧
    (getUTF8 (setUTF8 (some buf) buf.length r false).buffer buf.length false).ok = true ∧
    (getUTF8 (setUTF8 (some buf) buf.length r false).buffer buf.length false).unicode = r ∧
    (getUTF8 (setUTF8 (some buf) buf.length r false).buffer buf.length false).bytes =
      (setUTF8 (some buf) buf.length r false).bytes := by
  obtain ⟨hmax, hsur⟩ := hr
  rcases Nat.lt_or_ge r 0x80 with hc | hc
  · rw [setUTF8_1 buf buf.length r (by omega) (by omega)]
    have hb0 : byteAt (buf.set 0 r) 0 = r := byteAt_set_self buf 0 r (by omega)
    rw [getUTF8_1 (buf.set 0 r) buf.length false (by omega) (by omega)]
    simp [hb0]
  · rcases Nat.lt_or_ge r 0x800 with hc2 | hc2
    · rw [setUTF8_2 buf buf.length r (by omega) (by omega) (by omega)]
      have hl0 : (buf.set 0 (192 + r / 64)).length = buf.length := by simp
      have hb0 : byteAt ((buf.set 0 (192 + r / 64)).set 1 (128 + r % 64)) 0
          = 192 + r / 64 := by
        rw [byteAt_set_ne _ 1 0 _ (by omega), byteAt_set_self buf 0 _ (by omega)]
      have hb1 : byteAt ((buf.set 0 (192 + r / 64)).set 1 (128 + r % 64)) 1
          = 128 + r % 64 := by
        rw [byteAt_set_self _ 1 _ (by rw [hl0]; omega)]
      rw [getUTF8_2 _ buf.length r false (by omega) (by omega) (by omega) hb0 hb1]
      exact ⟨rfl, rfl, rfl, rfl⟩
    · rcases Nat.lt_or_ge r 0x10000 with hc3 | hc3
      · rw [setUTF8_3 buf buf.length r (by omega) (by omega) hsur (by omega)]
        have hb0 : byteAt (((buf.set 0 (224 + r / 4096)).set 1
            (128 + r / 64 % 64)).set 2 (128 + r % 64)) 0 = 224 + r / 4096 := by
          rw [byteAt_set_ne _ 2 0 _ (by omega), byteAt_set_ne _ 1 0 _ (by omega),
            byteAt_set_self buf 0 _ (by omega)]
        have hb1 : byteAt (((buf.set 0 (224 + r / 4096)).set 1
            (128 + r / 64 % 64)).set 2 (128 + r % 64)) 1 = 128 + r / 64 % 64 := by
          rw [byteAt_set_ne _ 2 1 _ (by omega), byteAt_set_self _ 1 _ (by simp; omega)]
        have hb2 : byteAt (((buf.set 0 (224 + r / 4096)).set 1
            (128 + r / 64 % 64)).set 2 (128 + r % 64)) 2 = 128 + r % 64 := by
          rw [byteAt_set_self _ 2 _ (by simp; omega)]
        rw [getUTF8_3 _ buf.length r false (by omega) (by omega) hsur (by omega) hb0 hb1 hb2]
        exact ⟨rfl, rfl, rfl, rfl⟩
      · rw [setUTF8_4 buf buf.length r (by omega) (by omega) (by omega)]
        have hb0 : byteAt ((((buf.set 0 (240 + r / 262144)).set 1
            (128 + r / 4096 % 64)).set 2 (128 + r / 64 % 64)).set 3 (128 + r % 64)) 0
            = 240 + r / 262144 := by
          rw [byteAt_set_ne _ 3 0 _ (by omega), byteAt_set_ne _ 2 0 _ (by omega),
            byteAt_set_ne _ 1 0 _ (by omega), byteAt_set_self buf 0 _ (by omega)]
        have hb1 : byteAt ((((buf.set 0 (240 + r / 262144)).set 1
            (128 + r / 4096 % 64)).set 2 (128 + r / 64 % 64)).set 3 (128 + r % 64)) 1
            = 128 + r / 4096 % 64 := by
          rw [byteAt_set_ne _ 3 1 _ (by omega), byteAt_set_ne _ 2 1 _ (by omega),
            byteAt_set_self _ 1 _ (by simp; omega)]
        have hb2 : byteAt ((((buf.set 0 (240 + r / 262144)).set 1
            (128 + r / 4096 % 64)).set 2 (128 + r / 64 % 64)).set 3 (128 + r % 64)) 2
            = 128 + r / 64 % 64 := by
          rw [byteAt_set_ne _ 3 2 _ (by omega), byteAt_set_self _ 2 _ (by simp; omega)]
        have hb3 : byteAt ((((buf.set 0 (240 + r / 262144)).set 1
            (128 + r / 4096 % 64)).set 2 (128 + r / 64 % 64)).set 3 (128 + r % 64)) 3
            = 128 + r % 64 := by
          rw [byteAt_set_self _ 3 _ (by simp; omega)]
        rw [getUTF8_4 _ buf.length r false (by omega) (by omega) (by omega) hb0 hb1 hb2 hb3]
        exact ⟨rfl, rfl, rfl, rfl⟩

/-! Branch characterisations of the UTF-16 primitives. -/

theorem setUTF16le_bmp (buf : List Nat) (size r : Nat) (hr : r ≤ 0xffff)
    (hsur : ¬(0xd800 ≤ r ∧ r ≤ 0xdfff)) (hs : 2 ≤ size) :
    setUTF16le (some buf) size r =
      { ok := true, bytes := 2, buffer := some ((buf.set 0 (r % 256)).set 1 (r / 256)) } := by
  simp only [setUTF16le]
  rw [if_pos ⟨hs, by omega, by rw [andF800]; omega⟩, if_pos hr]
  have hsr : r >>> 8 = r / 256 := by rw [Nat.shiftRight_eq_div_pow]
  have h1 : (r >>> 8) % 256 = r / 256 := by rw [hsr]; omega
  rw [h1]

theorem getUTF16le_bmp (buf : List Nat) (size r : Nat) (hr : r ≤ 0xffff)
    (hsur : ¬(0xd800 ≤ r ∧ r ≤ 0xdfff)) (hs : 2 ≤ size)
    (h0 : byteAt buf 0 = r % 256) (h1 : byteAt buf 1 = r / 256) :
    getUTF16le (some buf) size = { ok := true, unicode := r, bytes := 2 } := by
  simp only [getUTF16le, h0, h1]
  rw [if_pos hs]
  have e8 : (2 : Nat) ^ 8 = 256 := by norm_num
  have hv : ((r / 256) <<< 8) + r % 256 = r := by rw [Nat.shiftLeft_eq, e8]; omega
  rw [hv, if_pos (by rw [andF800]; omega)]

theorem setUTF16le_sur (buf : List Nat) (size r : Nat) (hr1 : 0x10000 ≤ r)
    (hr2 : r ≤ 0x10ffff) (hs : 4 ≤ size) :
    setUTF16le (some buf) size r =
      { ok := true, bytes := 4, buffer :=
          some ((((buf.set 0 ((0xd800 + (r - 0x10000) / 1024) % 256)).set 1
            ((0xd800 + (r - 0x10000) / 1024) / 256)).set 2
            ((0xdc00 + (r - 0x10000) % 1024) % 256)).set 3
            ((0xdc00 + (r - 0x10000) % 1024) / 256)) } := by
  simp only [setUTF16le]
  rw [if_pos ⟨by omega, by omega, by rw [andF800]; omega⟩, if_neg (by omega), if_pos hs]
  rw [utf16_word (r - 0x10000) (by omega)]
  set A := 65536 * (0xdc00 + (r - 0x10000) % 1024) + (0xd800 + (r - 0x10000) / 1024) with hA
  have e8 : A >>> 8 = A / 256 := by rw [Nat.shiftRight_eq_div_pow]
  have e16 : A >>> 16 = A / 65536 := by rw [Nat.shiftRight_eq_div_pow]
  have e24 : A >>> 24 = A / 16777216 := by rw [Nat.shiftRight_eq_div_pow]
  have hb0 : A % 256 = (0xd800 + (r - 0x10000) / 1024) % 256 := by omega
  have hb1 : A / 256 % 256 = (0xd800 + (r - 0x10000) / 1024) / 256 := by omega
  have hb2 : A / 65536 % 256 = (0xdc00 + (r - 0x10000) % 1024) % 256 := by omega
  have hb3 : A / 16777216 % 256 = (0xdc00 + (r - 0x10000) % 1024) / 256 := by omega
  rw [e8, e16, e24, hb0, hb1, hb2, hb3]

theorem getUTF16le_sur_dec (buf : List Nat) (size r : Nat) (hr1 : 0x10000 ≤ r)
    (hr2 : r ≤ 0x10ffff) (hs : 4 ≤ size)
    (h0 : byteAt buf 0 = (0xd800 + (r - 0x10000) / 1024) % 256)
    (h1 : byteAt buf 1 = (0xd800 + (r - 0x10000) / 1024) / 256)
    (h2 : byteAt buf 2 = (0xdc00 + (r - 0x10000) % 1024) % 256)
    (h3 : byteAt buf 3 = (0xdc00 + (r - 0x10000) % 1024) / 256) :
    getUTF16le (some buf) size = { ok := true, unicode := r, bytes := 4 } := by
  simp only [getUTF16le, h0, h1, h2, h3]
  rw [if_pos (by omega)]
  have e8 : (2 : Nat) ^ 8 = 256 := by norm_num
  have e10 : (2 : Nat) ^ 10 = 1024 := by norm_num
  have hv : (((0xd800 + (r - 0x10000) / 1024) / 256) <<< 8)
      + (0xd800 + (r - 0x10000) / 1024) % 256 = 0xd800 + (r - 0x10000) / 1024 := by
    rw [Nat.shiftLeft_eq, e8]; omega
  have hx : (((0xdc00 + (r - 0x10000) % 1024) / 256) <<< 8)
      + (0xdc00 + (r - 0x10000) % 1024) % 256 = 0xdc00 + (r - 0x10000) % 1024 := by
    rw [Nat.shiftLeft_eq, e8]; omega
  rw [hv, hx, if_neg (by rw [andF800]; omega), if_pos ⟨hs, by rw [andFC00]; omega⟩,
    if_pos (by rw [andFC00]; omega)]
  have hu : (((0xd800 + (r - 0x10000) / 1024) &&& 0x3ff) <<< 10)
      + ((0xdc00 + (r - 0x10000) % 1024) &&& 0x3ff) + 0x10000 = r := by
    rw [and1023, and1023, Nat.shiftLeft_eq, e10]; omega
  rw [hu]

theorem utf16le_roundtrip (r : Nat) (buf : List Nat) (hr : isRune r) (hl : 4 ≤ buf.length) :
    (setUTF16le (some buf) buf.length r).ok = true ∧
    (getUTF16le (setUTF16le (some buf) buf.length r).buffer buf.length).ok = true ∧
    (getUTF16le (setUTF16le (some buf) buf.length r).buffer buf.length).unicode = r ∧
    (getUTF16le (setUTF16le (some buf) buf.length r).buffer buf.length).bytes =
      (setUTF16le (some buf) buf.length r).bytes := by
  obtain ⟨hmax, hsur⟩ := hr
  rcases Nat.lt_or_ge r 0x10000 with hc | hc
  · rw [setUTF16le_bmp buf buf.length r (by omega) hsur (by omega)]
    have hb0 : byteAt ((buf.set 0 (r % 256)).set 1 (r / 256)) 0 = r % 256 := by
      rw [byteAt_set_ne _ 1 0 _ (by omega), byteAt_set_self buf 0 _ (by omega)]
    have hb1 : byteAt ((buf.set 0 (r % 256)).set 1 (r / 256)) 1 = r / 256 := by
      rw [byteAt_set_self _ 1 _ (by simp; omega)]
    rw [getUTF16le_bmp _ buf.length r (by omega) hsur (by omega) hb0 hb1]
    exact ⟨rfl, rfl, rfl, rfl⟩
  · rw [setUTF16le_sur buf buf.length r (by omega) (by omega) (by omega)]
    have hb0 : byteAt ((((buf.set 0 ((0xd800 + (r - 0x10000) / 1024) % 256)).set 1
        ((0xd800 + (r - 0x10000) / 1024) / 256)).set 2
        ((0xdc00 + (r - 0x10000) % 1024) % 256)).set 3
        ((0xdc00 + (r - 0x10000) % 1024) / 256)) 0 = (0xd800 + (r - 0x10000) / 1024) % 256 := by
      rw [byteAt_set_ne _ 3 0 _ (by omega), byteAt_set_ne _ 2 0 _ (by omega),
        byteAt_set_ne _ 1 0 _ (by omega), byteAt_set_self buf 0 _ (by omega)]
    have hb1 : byteAt ((((buf.set 0 ((0xd800 + (r - 0x10000) / 1024) % 256)).set 1
        ((0xd800 + (r - 0x10000) / 1024) / 256)).set 2
        ((0xdc00 + (r - 0x10000) % 1024) % 256)).set 3
        ((0xdc00 + (r - 0x10000) % 1024) / 256)) 1 = (0xd800 + (r - 0x10000) / 1024) / 256 := by
      rw [byteAt_set_ne _ 3 1 _ (by omega), byteAt_set_ne _ 2 1 _ (by omega),
        byteAt_set_self _ 1 _ (by simp; omega)]
    have hb2 : byteAt ((((buf.set 0 ((0xd800 + (r - 0x10000) / 1024) % 256)).set 1
        ((0xd800 + (r - 0x10000) / 1024) / 256)).set 2
        ((0xdc00 + (r - 0x10000) % 1024) % 256)).set 3
        ((0xdc00 + (r - 0x10000) % 1024) / 256)) 2 = (0xdc00 + (r - 0x10000) % 1024) % 256 := by
      rw [byteAt_set_ne _ 3 2 _ (by omega), byteAt_set_self _ 2 _ (by simp; omega)]
    have hb3 : byteAt ((((buf.set 0 ((0xd800 + (r - 0x10000) / 1024) % 256)).set 1
        ((0xd800 + (r - 0x10000) / 1024) / 256)).set 2
        ((0xdc00 + (r - 0x10000) % 1024) % 256)).set 3
        ((0xdc00 + (r - 0x10000) % 1024) / 256)) 3 = (0xdc00 + (r - 0x10000) % 1024) / 256 := by
      rw [byteAt_set_self _ 3 _ (by simp; omega)]
    rw [getUTF16le_sur_dec _ buf.length r (by omega) (by omega) (by omega) hb0 hb1 hb2 hb3]
    exact ⟨rfl, rfl, rfl, rfl⟩

theorem setUTF16be_bmp (buf : List Nat) (size r : Nat) (hr : r ≤ 0xffff)
    (hsur : ¬(0xd800 ≤ r ∧ r ≤ 0xdfff)) (hs : 2 ≤ size) :
    setUTF16be (some buf) size r =
      { ok := true, bytes := 2, buffer := some ((buf.set 0 (r / 256)).set 1 (r % 256)) } := by
  simp only [setUTF16be]
  rw [if_pos ⟨hs, by omega, by rw [andF800]; omega⟩, if_pos hr]
  have hsr : r >>> 8 = r / 256 := by rw [Nat.shiftRight_eq_div_pow]
  have h1 : (r >>> 8) % 256 = r / 256 := by rw [hsr]; omega
  rw [h1]

theorem getUTF16be_bmp (buf : List Nat) (size r : Nat) (hr : r ≤ 0xffff)
    (hsur : ¬(0xd800 ≤ r ∧ r ≤ 0xdfff)) (hs : 2 ≤ size)
    (h0 : byteAt buf 0 = r / 256) (h1 : byteAt buf 1 = r % 256) :
    getUTF16be (some buf) size = { ok := true, unicode := r, bytes := 2 } := by
  simp only [getUTF16be, h0, h1]
  rw [if_pos hs]
  have e8 : (2 : Nat) ^ 8 = 256 := by norm_num
  have hv : ((r / 256) <<< 8) + r % 256 = r := by rw [Nat.shiftLeft_eq, e8]; omega
  rw [hv, if_pos (by rw [andF800]; omega)]

theorem setUTF16be_sur (buf : List Nat) (size r : Nat) (hr1 : 0x10000 ≤ r)
    (hr2 : r ≤ 0x10ffff) (hs : 4 ≤ size) :
    setUTF16be (some buf) size r =
      { ok := true, bytes := 4, buffer :=
          some ((((buf.set 0 ((0xd800 + (r - 0x10000) / 1024) / 256)).set 1
            ((0xd800 + (r - 0x10000) / 1024) % 256)).set 2
            ((0xdc00 + (r - 0x10000) % 1024) / 256)).set 3
            ((0xdc00 + (r - 0x10000) % 1024) % 256)) } := by
  simp only [setUTF16be]
  rw [if_pos ⟨by omega, by omega, by rw [andF800]; omega⟩, if_neg (by omega), if_pos hs]
  rw [utf16_word (r - 0x10000) (by omega)]
  set A := 65536 * (0xdc00 + (r - 0x10000) % 1024) + (0xd800 + (r - 0x10000) / 1024) with hA
  have e8 : A >>> 8 = A / 256 := by rw [Nat.shiftRight_eq_div_pow]
  have e16 : A >>> 16 = A / 65536 := by rw [Nat.shiftRight_eq_div_pow]
  have e24 : A >>> 24 = A / 16777216 := by rw [Nat.shiftRight_eq_div_pow]
  have hb0 : A % 256 = (0xd800 + (r - 0x10000) / 1024) % 256 := by omega
  have hb1 : A / 256 % 256 = (0xd800 + (r - 0x10000) / 1024) / 256 := by omega
  have hb2 : A / 65536 % 256 = (0xdc00 + (r - 0x10000) % 1024) % 256 := by omega
  have hb3 : A / 16777216 % 256 = (0xdc00 + (r - 0x10000) % 1024) / 256 := by omega
  rw [e8, e16, e24, hb0, hb1, hb2, hb3]

theorem getUTF16be_sur_dec (buf : List Nat) (size r : Nat) (hr1 : 0x10000 ≤ r)
    (hr2 : r ≤ 0x10ffff) (hs : 4 ≤ size)
    (h0 : byteAt buf 0 = (0xd800 + (r - 0x10000) / 1024) / 256)
    (h1 : byteAt buf 1 = (0xd800 + (r - 0x10000) / 1024) % 256)
    (h2 : byteAt buf 2 = (0xdc00 + (r - 0x10000) % 1024) / 256)
    (h3 : byteAt buf 3 = (0xdc00 + (r - 0x10000) % 1024) % 256) :
    getUTF16be (some buf) size = { ok := true, unicode := r, bytes := 4 } := by
  simp only [getUTF16be, h0, h1, h2, h3]
  rw [if_pos (by omega)]
  have e8 : (2 : Nat) ^ 8 = 256 := by norm_num
  have e10 : (2 : Nat) ^ 10 = 1024 := by norm_num
  have hv : (((0xd800 + (r - 0x10000) / 1024) / 256) <<< 8)
      + (0xd800 + (r - 0x10000) / 1024) % 256 = 0xd800 + (r - 0x10000) / 1024 := by
    rw [Nat.shiftLeft_eq, e8]; omega
  have hx : (((0xdc00 + (r - 0x10000) % 1024) / 256) <<< 8)
      + (0xdc00 + (r - 0x10000) % 1024) % 256 = 0xdc00 + (r - 0x10000) % 1024 := by
    rw [Nat.shiftLeft_eq, e8]; omega
  rw [hv, hx, if_neg (by rw [andF800]; omega), if_pos ⟨hs, by rw [andFC00]; omega⟩,
    if_pos (by rw [andFC00]; omega)]
  have hu : (((0xd800 + (r - 0x10000) / 1024) &&& 0x3ff) <<< 10)
      + ((0xdc00 + (r - 0x10000) % 1024) &&& 0x3ff) + 0x10000 = r := by
    rw [and1023, and1023, Nat.shiftLeft_eq, e10]; omega
  rw [hu]

theorem utf16be_roundtrip (r : Nat) (buf : List Nat) (hr : isRune r) (hl : 4 ≤ buf.length) :
    (setUTF16be (some buf) buf.length r).ok = true ∧
    (getUTF16be (setUTF16be (some buf) buf.length r).buffer buf.length).ok = true ∧
    (getUTF16be (setUTF16be (some buf) buf.length r).buffer buf.length).unicode = r ∧
    (getUTF16be (setUTF16be (some buf) buf.length r).buffer buf.length).bytes =
      (setUTF16be (some buf) buf.length r).bytes := by
  obtain ⟨hmax, hsur⟩ := hr
  rcases Nat.lt_or_ge r 0x10000 with hc | hc
  · rw [setUTF16be_bmp buf buf.length r (by omega) hsur (by omega)]
    have hb0 : byteAt ((buf.set 0 (r / 256)).set 1 (r % 256)) 0 = r / 256 := by
      rw [byteAt_set_ne _ 1 0 _ (by omega), byteAt_set_self buf 0 _ (by omega)]
    have hb1 : byteAt ((buf.set 0 (r / 256)).set 1 (r % 256)) 1 = r % 256 := by
      rw [byteAt_set_self _ 1 _ (by simp; omega)]
    rw [getUTF16be_bmp _ buf.length r (by omega) hsur (by omega) hb0 hb1]
    exact ⟨rfl, rfl, rfl, rfl⟩
  · rw [setUTF16be_sur buf buf.length r (by omega) (by omega) (by omega)]
    have hb0 : byteAt ((((buf.set 0 ((0xd800 + (r - 0x10000) / 1024) / 256)).set 1
        ((0xd800 + (r - 0x10000) / 1024) % 256)).set 2
        ((0xdc00 + (r - 0x10000) % 1024) / 256)).set 3
        ((0xdc00 + (r - 0x10000) % 1024) % 256)) 0 = (0xd800 + (r - 0x10000) / 1024) / 256 := by
      rw [byteAt_set_ne _ 3 0 _ (by omega), byteAt_set_ne _ 2 0 _ (by omega),
        byteAt_set_ne _ 1 0 _ (by omega), byteAt_set_self buf 0 _ (by omega)]
    have hb1 : byteAt ((((buf.set 0 ((0xd800 + (r - 0x10000) / 1024) / 256)).set 1
        ((0xd800 + (r - 0x10000) / 1024) % 256)).set 2
        ((0xdc00 + (r - 0x10000) % 1024) / 256)).set 3
        ((0xdc00 + (r - 0x10000) % 1024) % 256)) 1 = (0xd800 + (r - 0x10000) / 1024) % 256 := by
      rw [byteAt_set_ne _ 3 1 _ (by omega), byteAt_set_ne _ 2 1 _ (by omega),
        byteAt_set_self _ 1 _ (by simp; omega)]
    have hb2 : byteAt ((((buf.set 0 ((0xd800 + (r - 0x10000) / 1024) / 256)).set 1
        ((0xd800 + (r - 0x10000) / 1024) % 256)).set 2
        ((0xdc00 + (r - 0x10000) % 1024) / 256)).set 3
        ((0xdc00 + (r - 0x10000) % 1024) % 256)) 2 = (0xdc00 + (r - 0x10000) % 1024) / 256 := by
      rw [byteAt_set_ne _ 3 2 _ (by omega), byteAt_set_self _ 2 _ (by simp; omega)]
    have hb3 : byteAt ((((buf.set 0 ((0xd800 + (r - 0x10000) / 1024) / 256)).set 1
        ((0xd800 + (r - 0x10000) / 1024) % 256)).set 2
        ((0xdc00 + (r - 0x10000) % 1024) / 256)).set 3
        ((0xdc00 + (r - 0x10000) % 1024) % 256)) 3 = (0xdc00 + (r - 0x10000) % 1024) % 256 := by
      rw [byteAt_set_self _ 3 _ (by simp; omega)]
    rw [getUTF16be_sur_dec _ buf.length r (by omega) (by omega) (by omega) hb0 hb1 hb2 hb3]
    exact ⟨rfl, rfl, rfl, rfl⟩

/-! Branch characterisations of the UTF-32 primitives. -/

theorem setUTF32le_eq (buf : List Nat) (size r : Nat) (hr : r ≤ 0x10ffff)
    (hsur : ¬(0xd800 ≤ r ∧ r ≤ 0xdfff)) (hs : 4 ≤ size) :
    setUTF32le (some buf) size r =
      { ok := true, bytes := 4, buffer :=
          some ((((buf.set 0 (r % 256)).set 1 (r / 256 % 256)).set 2
            (r / 65536 % 256)).set 3 (r / 16777216)) } := by
  simp only [setUTF32le]
  rw [if_pos ⟨hs, by omega, by rw [andF800]; omega⟩]
  have e8 : r >>> 8 = r / 256 := by rw [Nat.shiftRight_eq_div_pow]
  have e16 : r >>> 16 = r / 65536 := by rw [Nat.shiftRight_eq_div_pow]
  have e24 : r >>> 24 = r / 16777216 := by rw [Nat.shiftRight_eq_div_pow]
  have hb3 : r / 16777216 % 256 = r / 16777216 := by omega
  rw [e8, e16, e24, hb3]

theorem getUTF32le_dec (buf : List Nat) (size r : Nat) (hr : r ≤ 0x10ffff)
    (hsur : ¬(0xd800 ≤ r ∧ r ≤ 0xdfff)) (hs : 4 ≤ size)
    (h0 : byteAt buf 0 = r % 256) (h1 : byteAt buf 1 = r / 256 % 256)
    (h2 : byteAt buf 2 = r / 65536 % 256) (h3 : byteAt buf 3 = r / 16777216) :
    getUTF32le (some buf) size = { ok := true, unicode := r, bytes := 4 } := by
  simp only [getUTF32le, h0, h1, h2, h3]
  rw [if_pos hs]
  have e8 : (2 : Nat) ^ 8 = 256 := by norm_num
  have hv : ((((r / 16777216) <<< 8 + r / 65536 % 256) <<< 8) + r / 256 % 256) <<< 8
      + r % 256 = r := by
    rw [Nat.shiftLeft_eq, Nat.shiftLeft_eq, Nat.shiftLeft_eq, e8]; omega
  rw [hv, if_pos ⟨hr, by rw [andF800]; omega⟩]

theorem setUTF32be_eq (buf : List Nat) (size r : Nat) (hr : r ≤ 0x10ffff)
    (hsur : ¬(0xd800 ≤ r ∧ r ≤ 0xdfff)) (hs : 4 ≤ size) :
    setUTF32be (some buf) size r =
      { ok := true, bytes := 4, buffer :=
          some ((((buf.set 0 (r / 16777216)).set 1 (r / 65536 % 256)).set 2
            (r / 256 % 256)).set 3 (r % 256)) } := by
  simp only [setUTF32be]
  rw [if_pos ⟨hs, by omega, by rw [andF800]; omega⟩]
  have e8 : r >>> 8 = r / 256 := by rw [Nat.shiftRight_eq_div_pow]
  have e16 : r >>> 16 = r / 65536 := by rw [Nat.shiftRight_eq_div_pow]
  have e24 : r >>> 24 = r / 16777216 := by rw [Nat.shiftRight_eq_div_pow]
  have hb3 : r / 16777216 % 256 = r / 16777216 := by omega
  rw [e8, e16, e24, hb3]

theorem getUTF32be_dec (buf : List Nat) (size r : Nat) (hr : r ≤ 0x10ffff)
    (hsur : ¬(0xd800 ≤ r ∧ r ≤ 0xdfff)) (hs : 4 ≤ size)
    (h0 : byteAt buf 0 = r / 16777216) (h1 : byteAt buf 1 = r / 65536 % 256)
    (h2 : byteAt buf 2 = r / 256 % 256) (h3 : byteAt buf 3 = r % 256) :
    getUTF32be (some buf) size = { ok := true, unicode := r, bytes := 4 } := by
  simp only [getUTF32be, h0, h1, h2, h3]
  rw [if_pos hs]
  have e8 : (2 : Nat) ^ 8 = 256 := by norm_num
  have hv : ((((r / 16777216) <<< 8 + r / 65536 % 256) <<< 8) + r / 256 % 256) <<< 8
      + r % 256 = r := by
    rw [Nat.shiftLeft_eq, Nat.shiftLeft_eq, Nat.shiftLeft_eq, e8]; omega
  rw [hv, if_pos ⟨hr, by rw [andF800]; omega⟩]

theorem utf32le_roundtrip (r : Nat) (buf : List Nat) (hr : isRune r) (hl : 4 ≤ buf.length) :
    (setUTF32le (some buf) buf.length r).ok = true ∧
    (getUTF32le (setUTF32le (some buf) buf.length r).buffer buf.length).ok = true ∧
    (getUTF32le (setUTF32le (some buf) buf.length r).buffer buf.length).unicode = r ∧
    (getUTF32le (setUTF32le (some buf) buf.length r).buffer buf.length).bytes =
      (setUTF32le (some buf) buf.length r).bytes := by
  obtain ⟨hmax, hsur⟩ := hr
  rw [setUTF32le_eq buf buf.length r hmax hsur (by omega)]
  have hb0 : byteAt ((((buf.set 0 (r % 256)).set 1 (r / 256 % 256)).set 2
      (r / 65536 % 256)).set 3 (r / 16777216)) 0 = r % 256 := by
    rw [byteAt_set_ne _ 3 0 _ (by omega), byteAt_set_ne _ 2 0 _ (by omega),
      byteAt_set_ne _ 1 0 _ (by omega), byteAt_set_self buf 0 _ (by omega)]
  have hb1 : byteAt ((((buf.set 0 (r % 256)).set 1 (r / 256 % 256)).set 2
      (r / 65536 % 256)).set 3 (r / 16777216)) 1 = r / 256 % 256 := by
    rw [byteAt_set_ne _ 3 1 _ (by omega), byteAt_set_ne _ 2 1 _ (by omega),
      byteAt_set_self _ 1 _ (by simp; omega)]
  have hb2 : byteAt ((((buf.set 0 (r % 256)).set 1 (r / 256 % 256)).set 2
      (r / 65536 % 256)).set 3 (r / 16777216)) 2 = r / 65536 % 256 := by
    rw [byteAt_set_ne _ 3 2 _ (by omega), byteAt_set_self _ 2 _ (by simp; omega)]
  have hb3 : byteAt ((((buf.set 0 (r % 256)).set 1 (r / 256 % 256)).set 2
      (r / 65536 % 256)).set 3 (r / 16777216)) 3 = r / 16777216 := by
    rw [byteAt_set_self _ 3 _ (by simp; omega)]
  rw [getUTF32le_dec _ buf.length r hmax hsur (by omega) hb0 hb1 hb2 hb3]
  exact ⟨rfl, rfl, rfl, rfl⟩

theorem utf32be_roundtrip (r : Nat) (buf : List Nat) (hr : isRune r) (hl : 4 ≤ buf.length) :
    (setUTF32be (some buf) buf.length r).ok = true ∧
    (getUTF32be (setUTF32be (some buf) buf.length r).buffer buf.length).ok = true ∧
    (getUTF32be (setUTF32be (some buf) buf.length r).buffer buf.length).unicode = r ∧
    (getUTF32be (setUTF32be (some buf) buf.length r).buffer buf.length).bytes =
      (setUTF32be (some buf) buf.length r).bytes := by
  obtain ⟨hmax, hsur⟩ := hr
  rw [setUTF32be_eq buf buf.length r hmax hsur (by omega)]
  have hb0 : byteAt ((((buf.set 0 (r / 16777216)).set 1 (r / 65536 % 256)).set 2
      (r / 256 % 256)).set 3 (r % 256)) 0 = r / 16777216 := by
    rw [byteAt_set_ne _ 3 0 _ (by omega), byteAt_set_ne _ 2 0 _ (by omega),
      byteAt_set_ne _ 1 0 _ (by omega), byteAt_set_self buf 0 _ (by omega)]
  have hb1 : byteAt ((((buf.set 0 (r / 16777216)).set 1 (r / 65536 % 256)).set 2
      (r / 256 % 256)).set 3 (r % 256)) 1 = r / 65536 % 256 := by
    rw [byteAt_set_ne _ 3 1 _ (by omega), byteAt_set_ne _ 2 1 _ (by omega),
      byteAt_set_self _ 1 _ (by simp; omega)]
  have hb2 : byteAt ((((buf.set 0 (r / 16777216)).set 1 (r / 65536 % 256)).set 2
      (r / 256 % 256)).set 3 (r % 256)) 2 = r / 256 % 256 := by
    rw [byteAt_set_ne _ 3 2 _ (by omega), byteAt_set_self _ 2 _ (by simp; omega)]
  have hb3 : byteAt ((((buf.set 0 (r / 16777216)).set 1 (r / 65536 % 256)).set 2
      (r / 256 % 256)).set 3 (r % 256)) 3 = r % 256 := by
    rw [byteAt_set_self _ 3 _ (by simp; omega)]
  rw [getUTF32be_dec _ buf.length r hmax hsur (by omega) hb0 hb1 hb2 hb3]
  exact ⟨rfl, rfl, rfl, rfl⟩

/-! Bounds on the values assembled by the decoders. -/

theorem isRune_of {o : Bool} {n : Nat} (u : Nat) (h1 : u ≤ 0x10ffff)
    (h2 : ¬(0xd800 ≤ u ∧ u ≤ 0xdfff)) :
    isRune (DecRes.unicode { ok := o, unicode := u, bytes := n }) := ⟨h1, h2⟩

theorem val2_lt (x y : Nat) : ((x &&& 0x1f) <<< 6) + (y &&& 0x3f) < 2048 := by
  have h1 : x &&& 0x1f ≤ 0x1f := Nat.and_le_right
  have h2 : y &&& 0x3f ≤ 0x3f := Nat.and_le_right
  have e6 : (2 : Nat) ^ 6 = 64 := by norm_num
  rw [Nat.shiftLeft_eq, e6]
  omega

theorem val3_lt (x y z : Nat) :
    ((((x &&& 0x0f) <<< 6) + (y &&& 0x3f)) <<< 6) + (z &&& 0x3f) < 65536 := by
  have h1 : x &&& 0x0f ≤ 0x0f := Nat.and_le_right
  have h2 : y &&& 0x3f ≤ 0x3f := Nat.and_le_right
  have h3 : z &&& 0x3f ≤ 0x3f := Nat.and_le_right
  have e6 : (2 : Nat) ^ 6 = 64 := by norm_num
  rw [Nat.shiftLeft_eq, Nat.shiftLeft_eq, e6]
  omega

theorem val16_lt (x y : Nat) (hx : x < 256) (hy : y < 256) : (x <<< 8) + y < 65536 := by
  have e8 : (2 : Nat) ^ 8 = 256 := by norm_num
  rw [Nat.shiftLeft_eq, e8]
  omega

theorem comb_le (v e : Nat) : ((v &&& 0x3ff) <<< 10) + (e &&& 0x3ff) + 0x10000 ≤ 0x10ffff := by
  have h1 : v &&& 0x3ff ≤ 0x3ff := Nat.and_le_right
  have h2 : e &&& 0x3ff ≤ 0x3ff := Nat.and_le_right
  have e10 : (2 : Nat) ^ 10 = 1024 := by norm_num
  rw [Nat.shiftLeft_eq, e10]
  omega

set_option maxHeartbeats 2000000 in
/-- Every successful strict UTF-8 decode yields a rune (no byte bound is
needed: the masks already cap every assembled value). -/
theorem getUTF8_ok_rune (b : Option (List Nat)) (s : Nat) (j : Bool)
    (hok : (getUTF8 b s j).ok = true) : isRune (getUTF8 b s j).unicode := by
  cases b with
  | none => simp [getUTF8] at hok
  | some l =>
    simp only [getUTF8] at hok ⊢
    split_ifs at hok ⊢ <;>
      first
        | exact absurd hok Bool.false_ne_true
        | exact isRune_of _ (by omega) (by omega)
        | exact isRune_of _
            (by have := val2_lt (byteAt l 0) (byteAt l 1); omega)
            (by have := val2_lt (byteAt l 0) (byteAt l 1); omega)
        | exact isRune_of _
            (by have := val3_lt (byteAt l 0) (byteAt l 1) (byteAt l 2); omega)
            (by
              have := val3_lt (byteAt l 0) (byteAt l 1) (byteAt l 2)
              simp only [andF800] at *
              omega)

theorem getUTF16le_ok_rune (l : List Nat) (s : Nat) (hb : ∀ x ∈ l, x < 256)
    (hok : (getUTF16le (some l) s).ok = true) : isRune (getUTF16le (some l) s).unicode := by
  have hv : (byteAt l 1 <<< 8) + byteAt l 0 < 65536 :=
    val16_lt _ _ (byteAt_lt l 1 hb) (byteAt_lt l 0 hb)
  simp only [getUTF16le] at hok ⊢
  split_ifs at hok ⊢ <;>
    first
      | exact absurd hok Bool.false_ne_true
      | exact isRune_of _ (by omega) (by simp only [andF800] at *; omega)
      | exact isRune_of _
          (by have := comb_le ((byteAt l 1 <<< 8) + byteAt l 0)
                ((byteAt l 3 <<< 8) + byteAt l 2); omega)
          (by
            have h1 : ((byteAt l 1 <<< 8) + byteAt l 0) &&& 0x3ff ≤ 0x3ff := Nat.and_le_right
            omega)

theorem getUTF16be_ok_rune (l : List Nat) (s : Nat) (hb : ∀ x ∈ l, x < 256)
    (hok : (getUTF16be (some l) s).ok = true) : isRune (getUTF16be (some l) s).unicode := by
  have hv : (byteAt l 0 <<< 8) + byteAt l 1 < 65536 :=
    val16_lt _ _ (byteAt_lt l 0 hb) (byteAt_lt l 1 hb)
  simp only [getUTF16be] at hok ⊢
  split_ifs at hok ⊢ <;>
    first
      | exact absurd hok Bool.false_ne_true
      | exact isRune_of _ (by omega) (by simp only [andF800] at *; omega)
      | exact isRune_of _
          (by have := comb_le ((byteAt l 0 <<< 8) + byteAt l 1)
                ((byteAt l 2 <<< 8) + byteAt l 3); omega)
          (by
            have h1 : ((byteAt l 0 <<< 8) + byteAt l 1) &&& 0x3ff ≤ 0x3ff := Nat.and_le_right
            omega)

theorem getUTF32le_ok_rune (b : Option (List Nat)) (s : Nat)
    (hok : (getUTF32le b s).ok = true) : isRune (getUTF32le b s).unicode := by
  cases b with
  | none => simp [getUTF32le] at hok
  | some l =>
    simp only [getUTF32le] at hok ⊢
    split_ifs at hok ⊢ <;>
      first
        | exact absurd hok Bool.false_ne_true
        | exact isRune_of _ (by omega) (by simp only [andF800] at *; omega)

theorem getUTF32be_ok_rune (b : Option (List Nat)) (s : Nat)
    (hok : (getUTF32be b s).ok = true) : isRune (getUTF32be b s).unicode := by
  cases b with
  | none => simp [getUTF32be] at hok
  | some l =>
    simp only [getUTF32be] at hok ⊢
    split_ifs at hok ⊢ <;>
      first
        | exact absurd hok Bool.false_ne_true
        | exact isRune_of _ (by omega) (by simp only [andF800] at *; omega)

/-! Claim theorems. -/

/-- C1: for every rune `r` (0x0 ≤ r ≤ 0x10FFFF, not a surrogate) and
every primary encoding E in {UTF-8, UTF-16LE, UTF-16BE, UTF-32LE,
UTF-32BE}, encoding `r` with E's set function into a sufficiently large
buffer succeeds, and decoding the written bytes with E's get function
returns success, the same scalar `r`, and bytes consumed equal to the
byte count the encoder reported. -/
theorem claim_C1 (E : UTF_TYPE) (r : Nat) (buf : List Nat)
    (hE : E = UTF_TYPE.UTF8 ∨ E = UTF_TYPE.UTF16le ∨ E = UTF_TYPE.UTF16be ∨
      E = UTF_TYPE.UTF32le ∨ E = UTF_TYPE.UTF32be)
    (hr : isRune r) (hl : 4 ≤ buf.length) :
    ((getHandler E).hset (some buf) buf.length r).ok = true ∧
    ((getHandler E).hget ((getHandler E).hset (some buf) buf.length r).buffer
      buf.length).ok = true ∧
    ((getHandler E).hget ((getHandler E).hset (some buf) buf.length r).buffer
      buf.length).unicode = r ∧
    ((getHandler E).hget ((getHandler E).hset (some buf) buf.length r).buffer
      buf.length).bytes = ((getHandler E).hset (some buf) buf.length r).bytes := by
  rcases hE with h | h | h | h | h <;> subst h
  · exact utf8_roundtrip r buf hr hl
  · exact utf16le_roundtrip r buf hr hl
  · exact utf16be_roundtrip r buf hr hl
  · exact utf32le_roundtrip r buf hr hl
  · exact utf32be_roundtrip r buf hr hl

theorem claim_C1_witness :
    ((getHandler UTF_TYPE.UTF16le).hset (some [9, 9, 9, 9])
      (List.length [9, 9, 9, 9]) 0x10000).ok = true ∧
    ((getHandler UTF_TYPE.UTF16le).hget
      ((getHandler UTF_TYPE.UTF16le).hset (some [9, 9, 9, 9])
        (List.length [9, 9, 9, 9]) 0x10000).buffer
      (List.length [9, 9, 9, 9])).unicode = 0x10000 :=
  have h := claim_C1 UTF_TYPE.UTF16le 0x10000 [9, 9, 9, 9]
    (Or.inr (Or.inl rfl)) (by decide) (by decide)
  ⟨h.1, h.2.2.1⟩

/-- C5: decoding the bytes C0 80 with getUTF8 (size ≥ 2) fails with the
sentinel 0x800000C0 when use_java is false, and succeeds with scalar 0
and bytes = 2 when use_java is true. -/
theorem claim_C5 (rest : List Nat) (size : Nat) (hs : 2 ≤ size) :
    getUTF8 (some (0xc0 :: 0x80 :: rest)) size true
      = { ok := true, unicode := 0, bytes := 2 } ∧
    (getUTF8 (some (0xc0 :: 0x80 :: rest)) size false).ok = false ∧
    (getUTF8 (some (0xc0 :: 0x80 :: rest)) size false).unicode = 0x800000c0 := by
  have hb0 : byteAt (0xc0 :: 0x80 :: rest) 0 = 0xc0 := rfl
  have hb1 : byteAt (0xc0 :: 0x80 :: rest) 1 = 0x80 := rfl
  have hjava : getUTF8 (some (0xc0 :: 0x80 :: rest)) size true
      = { ok := true, unicode := 0, bytes := 2 } := by
    simp only [getUTF8, hb0, hb1]
    rw [if_pos (by omega), if_neg (by decide), if_pos (by decide), if_pos hs,
      if_pos (by decide), if_pos (by decide)]
    decide
  have hstd : getUTF8 (some (0xc0 :: 0x80 :: rest)) size false
      = { ok := false, unicode := 0xc0 ||| 0x80000000, bytes := 1 } := by
    simp only [getUTF8, hb0, hb1]
    rw [if_pos (by omega), if_neg (by decide), if_pos (by decide), if_pos hs,
      if_pos (by decide), if_neg (by decide)]
  refine ⟨hjava, ?_, ?_⟩ <;> rw [hstd] <;> decide

theorem claim_C5_witness :
    getUTF8 (some (0xc0 :: 0x80 :: [])) 2 true = { ok := true, unicode := 0, bytes := 2 } ∧
    (getUTF8 (some (0xc0 :: 0x80 :: [])) 2 false).ok = false ∧
    (getUTF8 (some (0xc0 :: 0x80 :: [])) 2 false).unicode = 0x800000c0 :=
  claim_C5 [] 2 (by decide)

/-- C6: under UTF-16LE the bytes 00 D8 00 DC (size ≥ 4) decode to scalar
0x10000 with 4 bytes consumed (the pair combining as
((high &&& 0x3FF) <<< 10) + (low &&& 0x3FF) + 0x10000), and encoding
scalar 0x10000 into a buffer of capacity ≥ 4 succeeds, writing exactly
the bytes 00 D8 00 DC and reporting 4 bytes. -/
theorem claim_C6 (rest buf : List Nat) (size cap : Nat) (hs : 4 ≤ size) (hc : 4 ≤ cap) :
    getUTF16le (some (0x00 :: 0xd8 :: 0x00 :: 0xdc :: rest)) size
      = { ok := true, unicode := 0x10000, bytes := 4 } ∧
    setUTF16le (some buf) cap 0x10000
      = { ok := true, bytes := 4,
          buffer := some ((((buf.set 0 0x00).set 1 0xd8).set 2 0x00).set 3 0xdc) } := by
  constructor
  · have hb0 : byteAt (0x00 :: 0xd8 :: 0x00 :: 0xdc :: rest) 0 = 0x00 := rfl
    have hb1 : byteAt (0x00 :: 0xd8 :: 0x00 :: 0xdc :: rest) 1 = 0xd8 := rfl
    have hb2 : byteAt (0x00 :: 0xd8 :: 0x00 :: 0xdc :: rest) 2 = 0x00 := rfl
    have hb3 : byteAt (0x00 :: 0xd8 :: 0x00 :: 0xdc :: rest) 3 = 0xdc := rfl
    simp only [getUTF16le, hb0, hb1, hb2, hb3]
    rw [if_pos (by omega), if_neg (by decide), if_pos ⟨hs, by decide⟩, if_pos (by decide)]
    decide
  · rw [setUTF16le_sur buf cap 0x10000 le_rfl (by norm_num) hc]

theorem claim_C6_witness :
    getUTF16le (some (0x00 :: 0xd8 :: 0x00 :: 0xdc :: [])) 4
      = { ok := true, unicode := 0x10000, bytes := 4 } ∧
    setUTF16le (some [9, 9, 9, 9]) 4 0x10000
      = { ok := true, bytes := 4,
          buffer := some (((([9, 9, 9, 9].set 0 0x00).set 1 0xd8).set 2 0x00).set 3 0xdc) } :=
  claim_C6 [] [9, 9, 9, 9] 4 4 (by decide) (by decide)

/-- C7: the UTF-16 encoders reject every scalar in the surrogate range
0xD800-0xDFFF, for every buffer and capacity, returning false with
bytes = 0 (in particular setUTF16le(buf, 2, 0xD800)). -/
theorem claim_C7 (b : Option (List Nat)) (size v : Nat)
    (hv1 : 0xd800 ≤ v) (hv2 : v ≤ 0xdfff) :
    (setUTF16le b size v).ok = false ∧ (setUTF16le b size v).bytes = 0 ∧
    (setUTF16be b size v).ok = false ∧ (setUTF16be b size v).bytes = 0 := by
  cases b with
  | none => exact ⟨rfl, rfl, rfl, rfl⟩
  | some buf =>
    have hm : ¬(2 ≤ size ∧ v ≤ 0x10ffff ∧ (v &&& 0xfffff800) ≠ 0xd800) := by
      rw [andF800]
      omega
    simp only [setUTF16le, setUTF16be]
    rw [if_neg hm, if_neg hm]
    exact ⟨rfl, rfl, rfl, rfl⟩

theorem claim_C7_witness :
    (setUTF16le (some [9, 9]) 2 0xd800).ok = false ∧
    (setUTF16le (some [9, 9]) 2 0xd800).bytes = 0 ∧
    (setUTF16be (some [9, 9]) 2 0xd800).ok = false ∧
    (setUTF16be (some [9, 9]) 2 0xd800).bytes = 0 :=
  claim_C7 (some [9, 9]) 2 0xd800 (by decide) (by decide)

/-- C9: identifyUTF checks BOMs with the 4-byte UTF-32 BOMs first, then
the 3-byte UTF-8 BOM, then the 2-byte UTF-16 BOMs: every buffer of size
≥ 3 beginning EF BB BF identifies as (UTF8, 3), and every buffer of size
≥ 4 beginning FF FE 00 00 identifies as (UTF32le, 4) rather than UTF16le. -/
theorem claim_C9 (buf : List Nat) (size : Nat) :
    (3 ≤ size → byteAt buf 0 = 0xef → byteAt buf 1 = 0xbb → byteAt buf 2 = 0xbf →
      identifyUTF (some buf) size = (UTF_TYPE.UTF8, 3)) ∧
    (4 ≤ size → byteAt buf 0 = 0xff → byteAt buf 1 = 0xfe → byteAt buf 2 = 0x00 →
      byteAt buf 3 = 0x00 →
      identifyUTF (some buf) size = (UTF_TYPE.UTF32le, 4)) := by
  constructor
  · intro hs h0 h1 h2
    simp only [identifyUTF]
    rw [h0, h1, h2]
    rw [if_pos (by omega), if_neg (by omega), if_neg (by omega),
      if_pos ⟨by omega, rfl, rfl, rfl⟩]
  · intro hs h0 h1 h2 h3
    simp only [identifyUTF]
    rw [h0, h1, h2, h3]
    rw [if_pos (by omega), if_pos ⟨by omega, by omega, rfl, rfl, rfl, rfl⟩]

theorem claim_C9_witness :
    identifyUTF (some [0xef, 0xbb, 0xbf]) 3 = (UTF_TYPE.UTF8, 3) ∧
    identifyUTF (some [0xff, 0xfe, 0x00, 0x00]) 4 = (UTF_TYPE.UTF32le, 4) :=
  ⟨(claim_C9 [0xef, 0xbb, 0xbf] 3).1 (by decide) rfl rfl rfl,
   (claim_C9 [0xff, 0xfe, 0x00, 0x00] 4).2 (by decide) rfl rfl rfl rfl⟩

/-- C10: whenever a strict-layer decode function (getUTF8 with either
use_java flag, getUTF16le, getUTF16be, getUTF32le, getUTF32be) returns
true on a buffer of byte values, the output unicode is a valid Unicode
scalar value (at most 0x10FFFF and not in 0xD800-0xDFFF). -/
theorem claim_C10 (b : Option (List Nat)) (size : Nat) (j : Bool)
    (hb : ∀ l ∈ b, ∀ x ∈ l, x < 256) :
    ((getUTF8 b size j).ok = true → isRune (getUTF8 b size j).unicode) ∧
    ((getUTF16le b size).ok = true → isRune (getUTF16le b size).unicode) ∧
    ((getUTF16be b size).ok = true → isRune (getUTF16be b size).unicode) ∧
    ((getUTF32le b size).ok = true → isRune (getUTF32le b size).unicode) ∧
    ((getUTF32be b size).ok = true → isRune (getUTF32be b size).unicode) := by
  refine ⟨getUTF8_ok_rune b size j, ?_, ?_, getUTF32le_ok_rune b size,
    getUTF32be_ok_rune b size⟩
  · cases b with
    | none => intro h; simp [getUTF16le] at h
    | some l => exact getUTF16le_ok_rune l size (hb l rfl)
  · cases b with
    | none => intro h; simp [getUTF16be] at h
    | some l => exact getUTF16be_ok_rune l size (hb l rfl)

theorem claim_C10_witness :
    isRune (getUTF8 (some [0xf4, 0x8f, 0xbf, 0xbf]) 4 false).unicode ∧
    isRune (getUTF16le (some [0x00, 0xd8, 0x00, 0xdc]) 4).unicode :=
  ⟨(claim_C10 (some [0xf4, 0x8f, 0xbf, 0xbf]) 4 false (by decide)).1 (by decide),
   (claim_C10 (some [0x00, 0xd8, 0x00, 0xdc]) 4 false (by decide)).2.1 (by decide)⟩

/-- C2 (code-bug exhibit): on the cursor over the single valid UTF-8
byte 0x41 (offset 0, length 1), one read succeeds and consumes exactly
the remaining content, yet IUTF::validate returns false: the guard on
utf_std.cpp line 1142 rejects every cursor with offset < length before
any decoding, contradicting both the claim and the function's own
comment ("attempts to read the entire buffer and returns false on any
read fails"). -/
theorem claim_C2_bug :
    (IUTF.read .utf8 { length := 1, offset := 0, buffer := some [0x41] }).1.ok = true ∧
    (IUTF.read .utf8 { length := 1, offset := 0, buffer := some [0x41] }).2.offset = 1 ∧
    IUTF.validate .utf8 { length := 1, offset := 0, buffer := some [0x41] } = false := by
  refine ⟨by decide, by decide, ?_⟩
  simp only [IUTF.validate]
  rw [if_pos (Or.inr (by decide))]

/-! Helper lemmas for C3: every encode primitive reports bytes = 0 when
it fails. -/

theorem setBYTE_fail_bytes (b : Option (List Nat)) (s u : Nat) (a : Bool)
    (hf : (setBYTE b s u a).ok = false) : (setBYTE b s u a).bytes = 0 := by
  cases b with
  | none => rfl
  | some buf =>
    simp only [setBYTE] at hf ⊢
    split_ifs at hf ⊢ <;> simp_all

theorem setUTF8_fail_bytes (b : Option (List Nat)) (s u : Nat) (j : Bool)
    (hf : (setUTF8 b s u j).ok = false) : (setUTF8 b s u j).bytes = 0 := by
  cases b with
  | none => rfl
  | some buf =>
    simp only [setUTF8] at hf ⊢
    split_ifs at hf ⊢ <;> simp_all

theorem setUTF16le_fail_bytes (b : Option (List Nat)) (s u : Nat)
    (hf : (setUTF16le b s u).ok = false) : (setUTF16le b s u).bytes = 0 := by
  cases b with
  | none => rfl
  | some buf =>
    simp only [setUTF16le] at hf ⊢
    split_ifs at hf ⊢ <;> simp_all

theorem setUTF16be_fail_bytes (b : Option (List Nat)) (s u : Nat)
    (hf : (setUTF16be b s u).ok = false) : (setUTF16be b s u).bytes = 0 := by
  cases b with
  | none => rfl
  | some buf =>
    simp only [setUTF16be] at hf ⊢
    split_ifs at hf ⊢ <;> simp_all

theorem setUTF32le_fail_bytes (b : Option (List Nat)) (s u : Nat)
    (hf : (setUTF32le b s u).ok = false) : (setUTF32le b s u).bytes = 0 := by
  cases b with
  | none => rfl
  | some buf =>
    simp only [setUTF32le] at hf ⊢
    split_ifs at hf ⊢ <;> simp_all

theorem setUTF32be_fail_bytes (b : Option (List Nat)) (s u : Nat)
    (hf : (setUTF32be b s u).ok = false) : (setUTF32be b s u).bytes = 0 := by
  cases b with
  | none => rfl
  | some buf =>
    simp only [setUTF32be] at hf ⊢
    split_ifs at hf ⊢ <;> simp_all

theorem hset_fail_bytes (h : Handler) (b : Option (List Nat)) (s u : Nat)
    (hf : (h.hset b s u).ok = false) : (h.hset b s u).bytes = 0 := by
  cases h <;> simp only [Handler.hset] at hf ⊢
  · exact setUTF8_fail_bytes b s u false hf
  · exact setUTF8_fail_bytes b s u true hf
  · exact setUTF16le_fail_bytes b s u hf
  · exact setUTF16be_fail_bytes b s u hf
  · exact setUTF32le_fail_bytes b s u hf
  · exact setUTF32be_fail_bytes b s u hf
  · exact setBYTE_fail_bytes b s u false hf
  · exact setBYTE_fail_bytes b s u true hf

/-- C3 (counterexample): with the UTF-8 handler and the cursor over the
single continuation byte 0x80 (offset 0, length 1), read fails yet
advances the offset by 1, not 0: on failure getUTF8 reports the
code-unit width 1 as bytes, and IUTF::read adds it to the offset
unconditionally, refuting "advance by zero when the operation fails". -/
theorem claim_C3_cex :
    (IUTF.read .utf8 { length := 1, offset := 0, buffer := some [0x80] }).1.ok = false ∧
    (IUTF.read .utf8 { length := 1, offset := 0, buffer := some [0x80] }).2.offset = 1 := by
  decide

/-- C3 (amended): IUTF::read and IUTF::write advance the cursor's offset
by exactly the bytes value reported by get/set — on success the bytes
consumed or produced.  A failing write reports bytes = 0, so write never
advances on failure; a failing read advances by the failure bytes
report, which is the code-unit width (nonzero) except at end of buffer. -/
theorem claim_C3 (h : Handler) (t : utf_text) (u : Nat) :
    (IUTF.read h t).2.offset = t.offset + (IUTF.get h t).bytes ∧
    (IUTF.write h t u).2.offset = t.offset + (IUTF.set h t u).bytes ∧
    ((IUTF.set h t u).ok = false → (IUTF.set h t u).bytes = 0) := by
  refine ⟨rfl, rfl, ?_⟩
  intro hfail
  unfold IUTF.set at hfail ⊢
  by_cases hc : t.offset ≤ t.length
  · rw [if_pos hc] at hfail ⊢
    exact hset_fail_bytes h _ _ u hfail
  · rw [if_neg hc] at hfail ⊢

theorem claim_C3_witness :
    (IUTF.write .ascii { length := 2, offset := 0, buffer := some [9, 9] } 0x100).2.offset
      = 0 := by
  have h := claim_C3 .ascii { length := 2, offset := 0, buffer := some [9, 9] } 0x100
  rw [h.2.1, h.2.2 (by decide)]

/-- Declared sequence width of a UTF-8 lead byte, from the wire-format
table of the specification (0x00-0x7F: 1 byte, 0xC0-0xDF: 2, 0xE0-0xEF:
3, 0xF0-0xF7: 4; continuation and illegal lead bytes declare no form). -/
def utf8DeclaredWidth (b : Nat) : Option Nat :=
  if b ≤ 0x7f then some 1
  else if 0xc0 ≤ b ∧ b ≤ 0xdf then some 2
  else if 0xe0 ≤ b ∧ b ≤ 0xef then some 3
  else if 0xf0 ≤ b ∧ b ≤ 0xf7 then some 4
  else none

/-- C4 (counterexample): decoding the truncated 3-byte sequence E2 82
with size 2 fails but reports bytes = 1 (the UTF-8 code-unit width), not
the full declared width 3 the claim predicts. -/
theorem claim_C4_cex :
    (getUTF8 (some [0xe2, 0x82]) 2 false).ok = false ∧
    (getUTF8 (some [0xe2, 0x82]) 2 false).bytes = 1 ∧
    (getUTF8 (some [0xe2, 0x82]) 2 false).bytes ≠ 3 := by
  decide

/-- C4 (amended): for getUTF8 on a non-null buffer whose size is smaller
than the width declared by the lead byte's sequence form, the decode
fails reporting the code-unit width 1 — not the declared width — as the
bytes value; bytes = 0 is reported exactly when size = 0 (genuine end of
buffer). -/
theorem claim_C4 (buf : List Nat) (size : Nat) (j : Bool) :
    ((getUTF8 (some buf) size j).bytes = 0 ↔ size = 0) ∧
    (∀ w, utf8DeclaredWidth (byteAt buf 0) = some w → 1 ≤ size → size < w →
      (getUTF8 (some buf) size j).ok = false ∧ (getUTF8 (some buf) size j).bytes = 1) := by
  constructor
  · rcases Nat.eq_zero_or_pos size with h0 | hpos
    · subst h0
      simp [getUTF8]
    · simp only [getUTF8]
      rw [if_pos (show 1 ≤ size by omega)]
      split_ifs <;> simp <;> omega
  · intro w hw h1 h2
    unfold utf8DeclaredWidth at hw
    split_ifs at hw with c1 c2 c3 c4
    · rw [Option.some_inj] at hw
      omega
    · rw [Option.some_inj] at hw
      subst hw
      simp only [getUTF8]
      rw [if_pos (by omega), if_neg (by omega), if_pos (by omega), if_neg (by omega)]
      exact ⟨rfl, rfl⟩
    · rw [Option.some_inj] at hw
      subst hw
      simp only [getUTF8]
      rw [if_pos (by omega), if_neg (by omega), if_neg (by omega), if_pos (by omega),
        if_neg (by omega)]
      exact ⟨rfl, rfl⟩
    · rw [Option.some_inj] at hw
      subst hw
      simp only [getUTF8]
      rw [if_pos (by omega), if_neg (by omega), if_neg (by omega), if_neg (by omega),
        if_neg (by omega)]
      exact ⟨rfl, rfl⟩

theorem claim_C4_witness :
    (getUTF8 (some [0xf0, 0x90, 0x8d]) 3 false).ok = false ∧
    (getUTF8 (some [0xf0, 0x90, 0x8d]) 3 false).bytes = 1 :=
  (claim_C4 [0xf0, 0x90, 0x8d] 3 false).2 4 (by decide) (by decide) (by decide)

/-- One unfolding step of the getLine scanning loop (the equation of its
well-founded recursion, with the dependent ifs flattened). -/
theorem getLineLoop_step (h : Handler) (scan : utf_text) :
    IUTF.getLineLoop h scan =
      if (IUTF.getNLF h scan).ok then
        if (IUTF.getNLF h scan).unicode = 0x0a ∨ (IUTF.getNLF h scan).unicode = 0 then
          (true, { length := scan.offset, offset := 0, buffer := scan.buffer },
            (IUTF.getNLF h scan).bytes + scan.offset)
        else IUTF.getLineLoop h { scan with offset := scan.offset + (IUTF.getNLF h scan).bytes }
      else (false, { length := 0, offset := 0, buffer := none }, (IUTF.getNLF h scan).bytes) := by
  rw [IUTF.getLineLoop]
  simp only [dite_eq_ite]

/-- C8 (counterexample): over exactly the four bytes 61 0D 0A 62 (no
terminating boundary) the first readLine yields the line "a" with the
CR+LF pair collapsed into a 2-byte boundary (offset advances to 3), but
the second readLine returns false: the trailing "b" is never yielded as
a line, refuting the claim's second part for these bytes. -/
theorem claim_C8_cex :
    IUTF.readLine .utf8 { length := 4, offset := 0, buffer := some [0x61, 0x0d, 0x0a, 0x62] }
      = (true, { length := 1, offset := 0, buffer := some [0x61, 0x0d, 0x0a, 0x62] },
          { length := 4, offset := 3, buffer := some [0x61, 0x0d, 0x0a, 0x62] }) ∧
    (IUTF.readLine .utf8
      { length := 4, offset := 3, buffer := some [0x61, 0x0d, 0x0a, 0x62] }).1 = false := by
  have hloop1 : IUTF.getLineLoop .utf8 { length := 4, offset := 0, buffer := some [0x61, 0x0d, 0x0a, 0x62] } = (true, { length := 1, offset := 0, buffer := some [0x61, 0x0d, 0x0a, 0x62] }, 3) := by
    rw [getLineLoop_step]
    have e1 : IUTF.getNLF .utf8 { length := 4, offset := 0, buffer := some [0x61, 0x0d, 0x0a, 0x62] } = { ok := true, unicode := 0x61, bytes := 1 } := by decide
    rw [e1]
    norm_num
    rw [getLineLoop_step]
    have e2 : IUTF.getNLF .utf8 { length := 4, offset := 1, buffer := some [0x61, 0x0d, 0x0a, 0x62] } = { ok := true, unicode := 0x0a, bytes := 2 } := by decide
    rw [e2]
    norm_num
  have hloop2 : IUTF.getLineLoop .utf8 { length := 1, offset := 0, buffer := some [0x62] } = (false, { length := 0, offset := 0, buffer := none }, 0) := by
    rw [getLineLoop_step]
    have e3 : IUTF.getNLF .utf8 { length := 1, offset := 0, buffer := some [0x62] } = { ok := true, unicode := 0x62, bytes := 1 } := by decide
    rw [e3]
    norm_num
    rw [getLineLoop_step]
    have e4 : IUTF.getNLF .utf8 { length := 1, offset := 1, buffer := some [0x62] } = { ok := false, unicode := 0, bytes := 0 } := by decide
    rw [e4]
    norm_num
  have hgl1 : IUTF.getLine .utf8 { length := 4, offset := 0, buffer := some [0x61, 0x0d, 0x0a, 0x62] } = (true, { length := 1, offset := 0, buffer := some [0x61, 0x0d, 0x0a, 0x62] }, 3) := by
    unfold IUTF.getLine
    rw [if_pos (by decide)]
    exact hloop1
  have hgl2 : IUTF.getLine .utf8 { length := 4, offset := 3, buffer := some [0x61, 0x0d, 0x0a, 0x62] } = (false, { length := 0, offset := 0, buffer := none }, 0) := by
    unfold IUTF.getLine
    rw [if_pos (by decide)]
    exact hloop2
  constructor
  · unfold IUTF.readLine
    rw [hgl1]
    rfl
  · unfold IUTF.readLine
    rw [hgl2]

/-- C8 (amended): over the NUL-terminated bytes 61 0D 0A 62 00 — the C
string "a\r\nb", whose terminator is itself one of the line boundaries —
readLine yields first the line view over exactly "a" whose boundary
consumes 2 bytes (the adjacent CR+LF pair, detected by the decoded value
equalling the following value xor 0x7, collapsed into one boundary, so
the offset advances 3 = 1 content + 2 boundary bytes), and then the line
view over exactly "b". -/
theorem claim_C8 :
    IUTF.readLine .utf8
        { length := 5, offset := 0, buffer := some [0x61, 0x0d, 0x0a, 0x62, 0x00] }
      = (true, { length := 1, offset := 0, buffer := some [0x61, 0x0d, 0x0a, 0x62, 0x00] },
          { length := 5, offset := 3, buffer := some [0x61, 0x0d, 0x0a, 0x62, 0x00] }) ∧
    IUTF.readLine .utf8
        { length := 5, offset := 3, buffer := some [0x61, 0x0d, 0x0a, 0x62, 0x00] }
      = (true, { length := 1, offset := 0, buffer := some [0x62, 0x00] },
          { length := 5, offset := 5, buffer := some [0x61, 0x0d, 0x0a, 0x62, 0x00] }) := by
  have hloop1 : IUTF.getLineLoop .utf8 { length := 5, offset := 0, buffer := some [0x61, 0x0d, 0x0a, 0x62, 0x00] } = (true, { length := 1, offset := 0, buffer := some [0x61, 0x0d, 0x0a, 0x62, 0x00] }, 3) := by
    rw [getLineLoop_step]
    have e1 : IUTF.getNLF .utf8 { length := 5, offset := 0, buffer := some [0x61, 0x0d, 0x0a, 0x62, 0x00] } = { ok := true, unicode := 0x61, bytes := 1 } := by decide
    rw [e1]
    norm_num
    rw [getLineLoop_step]
    have e2 : IUTF.getNLF .utf8 { length := 5, offset := 1, buffer := some [0x61, 0x0d, 0x0a, 0x62, 0x00] } = { ok := true, unicode := 0x0a, bytes := 2 } := by decide
    rw [e2]
    norm_num
  have hloop2 : IUTF.getLineLoop .utf8 { length := 2, offset := 0, buffer := some [0x62, 0x00] } = (true, { length := 1, offset := 0, buffer := some [0x62, 0x00] }, 2) := by
    rw [getLineLoop_step]
    have e3 : IUTF.getNLF .utf8 { length := 2, offset := 0, buffer := some [0x62, 0x00] } = { ok := true, unicode := 0x62, bytes := 1 } := by decide
    rw [e3]
    norm_num
    rw [getLineLoop_step]
    have e4 : IUTF.getNLF .utf8 { length := 2, offset := 1, buffer := some [0x62, 0x00] } = { ok := true, unicode := 0, bytes := 1 } := by decide
    rw [e4]
    norm_num
  have hgl1 : IUTF.getLine .utf8 { length := 5, offset := 0, buffer := some [0x61, 0x0d, 0x0a, 0x62, 0x00] } = (true, { length := 1, offset := 0, buffer := some [0x61, 0x0d, 0x0a, 0x62, 0x00] }, 3) := by
    unfold IUTF.getLine
    rw [if_pos (by decide)]
    exact hloop1
  have hgl2 : IUTF.getLine .utf8 { length := 5, offset := 3, buffer := some [0x61, 0x0d, 0x0a, 0x62, 0x00] } = (true, { length := 1, offset := 0, buffer := some [0x62, 0x00] }, 2) := by
    unfold IUTF.getLine
    rw [if_pos (by decide)]
    exact hloop2
  constructor
  · unfold IUTF.readLine
    rw [hgl1]
    rfl
  · unfold IUTF.readLine
    rw [hgl2]
    rfl

end LibUTF
